import Mathlib

/-!
# SnapScript: the label-scanning pipeline of `src/app/add-medication.jsx`

A shallow embedding of `analyzeImage` (text extraction fallback, the two service
calls, and the field-parsing block), of `pickImage` and `handleAddMedication`,
and of `getColorFromName` of `src/app/home.jsx`, together with the properties
the specification states about them.

JavaScript strings are modelled as lists of characters (`Str`).  Every character
the code inspects (`"\n"`, `":"`, `"-"`, `" "` and the white space removed by
`String.prototype.trim`) is a single UTF-16 unit, so nothing the code does
depends on how characters outside the basic plane are encoded.
-/

set_option autoImplicit false

namespace SnapScript

/-- A JavaScript string. -/
abbrev Str := List Char

/-- The JavaScript values that occur in the parsing block: a string or `undefined`. -/
inductive Value where
  | undefined : Value
  | str (s : Str) : Value
  deriving DecidableEq, Repr

/-- JavaScript truthiness on `Value`: `undefined` and `""` are falsy. -/
def Value.truthy : Value → Bool
  | .undefined => false
  | .str s => !s.isEmpty

/-- The operator `a || b`. -/
def jsOr (a b : Value) : Value :=
  if a.truthy then a else b

/-- The conversion `String(v)` performed by a template literal. -/
def Value.toStr : Value → Str
  | .undefined => "undefined".toList
  | .str s => s

/-- White space in the sense of `String.prototype.trim`: the ECMAScript
`WhiteSpace` and `LineTerminator` code points. -/
def isWhiteSpace (c : Char) : Bool :=
  let n := c.toNat
  n == 0x09 || n == 0x0A || n == 0x0B || n == 0x0C || n == 0x0D || n == 0x20 ||
  n == 0xA0 || n == 0x1680 || (0x2000 ≤ n && n ≤ 0x200A) || n == 0x2028 ||
  n == 0x2029 || n == 0x202F || n == 0x205F || n == 0x3000 || n == 0xFEFF

/-- The method `s.trim()`. -/
def trim (s : Str) : Str :=
  ((s.dropWhile isWhiteSpace).reverse.dropWhile isWhiteSpace).reverse

/-- The method `s.split(sep)` for a one-character separator: the pieces between
the occurrences of `sep`, always at least one piece. -/
def split (sep : Char) : Str → List Str
  | [] => [[]]
  | c :: cs =>
    if c = sep then [] :: split sep cs
    else (c :: (split sep cs).headD []) :: (split sep cs).tail

/-- The call `key.replace(/^- /, "")`: one leading `"- "` is removed. -/
def stripMarker : Str → Str
  | '-' :: ' ' :: rest => rest
  | s => s

/-- The expression `key.replace(/^- /, "").trim()`. -/
def cleanedKey (key : Str) : Str :=
  trim (stripMarker key)

/-- The object `parsedData`: its own string-valued properties, most recent
assignment first. -/
abbrev Obj := List (Str × Str)

/-- The assignment `parsedData[k] = v` on an object created by `{}`.  Assigning a
string to `__proto__` runs the inherited setter, which ignores values that are
not objects; every other key becomes (or overwrites) an own property. -/
def setProp (pd : Obj) (k v : Str) : Obj :=
  if k = "__proto__".toList then pd else (k, v) :: pd

/-- The read `parsedData[k]` for a key that `Object.prototype` does not define
(the four labels the code reads). -/
def getProp : Obj → Str → Value
  | [], _ => .undefined
  | (k', v) :: rest, k => if k' = k then .str v else getProp rest k

/-- The destructuring `const [key, value] = line.split(":").map(trim)`:
element 0 and element 1 of the array, `none` for `undefined`. -/
def keyValue (line : Str) : Option Str × Option Str :=
  let parts := (split ':' line).map trim
  (parts[0]?, parts[1]?)

/-- The guard `key && value !== undefined` of the `forEach` callback. -/
def recorded (line : Str) : Bool :=
  match keyValue line with
  | (some key, some _) => !key.isEmpty
  | _ => false

/-- The body of the `forEach` callback, as a transformer of `parsedData`. -/
def processLine (pd : Obj) (line : Str) : Obj :=
  match keyValue line with
  | (some key, some value) =>
    if !key.isEmpty then setProp pd (cleanedKey key) value else pd
  | _ => pd

/-- The object `parsedData` after `responseText.split("\n").forEach(...)`. -/
def parsedData (responseText : Str) : Obj :=
  (split '\n' responseText).foldl processLine []

/-- The four values handed to `setMedicationName`, `setDosageAmount`,
`setDosageForm` and `setInstructions`. -/
structure Draft where
  name : Value
  dosageAmount : Value
  dosageForm : Value
  instructions : Value
  deriving DecidableEq, Repr

/-- The reads `parsedData[label] || ""` of the four recognised labels. -/
def draftOf (pd : Obj) : Draft where
  name := jsOr (getProp pd "Medication Name".toList) (.str [])
  dosageAmount := jsOr (getProp pd "Dosage".toList) (.str [])
  dosageForm := jsOr (getProp pd "Dosage Form".toList) (.str [])
  instructions := jsOr (getProp pd "Instructions".toList) (.str [])

/-- Field parsing: lines 157-172 of `analyzeImage`. -/
def parse (responseText : Str) : Draft :=
  draftOf (parsedData responseText)

/-- The draft whose four fields are the empty string. -/
def emptyDraft : Draft := ⟨.str [], .str [], .str [], .str []⟩

/-- The method `lines.join("\n")`. -/
def joinLines : List Str → Str
  | [] => []
  | [l] => l
  | l :: l2 :: ls => l ++ '\n' :: joinLines (l2 :: ls)

/-- The text obtained from `text` by inserting `line` as a new line before line
number `k` (counted from 0); from `k` = number of lines on, after the last line. -/
def insertLine (text : Str) (k : Nat) (line : Str) : Str :=
  joinLines ((split '\n' text).take k ++ line :: (split '\n' text).drop k)

/-- The property of `parsedData` a line assigns to, if it assigns at all: the
cleaned key of a line that passes the guard. -/
def lineLabel (line : Str) : Option Str :=
  match keyValue line with
  | (some key, some _) => if !key.isEmpty then some (cleanedKey key) else none
  | _ => none

/-- The label of a line as the code computes it: the text before the first
colon, trimmed, with one leading `"- "` removed, and trimmed again. -/
def labelOf (line : Str) : Str :=
  cleanedKey (trim ((split ':' line).headD []))

/-- The four labels the code reads from `parsedData`. -/
def recognised : List Str :=
  ["Medication Name".toList, "Dosage".toList, "Dosage Form".toList, "Instructions".toList]

/-- The label of a line in the wording of the specification: the text before the
first colon, trimmed, with one leading `"- "` removed (and not trimmed again). -/
def labelAsWorded (line : Str) : Str :=
  stripMarker (trim ((split ':' line).headD []))

/-- The lines of a list of texts: the concatenation of `l.split("\n")` over its members. -/
def linesOf : List Str → List Str
  | [] => []
  | l :: ls => split '\n' l ++ linesOf ls

/-- Folding of the ASCII letters to lower case, used to say that two labels
differ only in letter case. -/
def lower (s : Str) : Str :=
  s.map Char.toLower

/-- The four-line text of the prompt format with the values `n`, `d`, `f`, `i`. -/
def promptFormat (n d f i : Str) : Str :=
  "- Medication Name: ".toList ++ n ++ "\n- Dosage: ".toList ++ d ++
    "\n- Dosage Form: ".toList ++ f ++ "\n- Instructions: ".toList ++ i

/-! ## The pipeline around field parsing -/

/-- The object `fullTextAnnotation` of an OCR response; `text` is an optional string. -/
structure Annotation where
  text : Option Str
  deriving DecidableEq, Repr

/-- One entry of `responses` in the body of the OCR reply. -/
structure AnnotateResponse where
  fullTextAnnotation : Option Annotation
  deriving DecidableEq, Repr

/-- The body `visionRes.data` of the OCR reply: `responses` is `none` when the
body has no such list; an entry of the list may be null. -/
structure VisionData where
  responses : Option (List (Option AnnotateResponse))
  deriving DecidableEq, Repr

/-- The object `message` of a completion choice. -/
structure Message where
  content : Option Str
  deriving DecidableEq, Repr

/-- One entry of `choices` in the body of the text-generation reply. -/
structure Choice where
  message : Option Message
  deriving DecidableEq, Repr

/-- The body `aiRes.data` of the text-generation reply. -/
structure CompletionData where
  choices : Option (List (Option Choice))
  deriving DecidableEq, Repr

/-- The two remote services as `axios.post` sees them: the reply to a request, or
`none` when the promise rejects (transport failure, status outside 2xx). -/
structure Services where
  vision : Str → Option VisionData
  completion : Str → Option CompletionData

/-- The sentinel `"No text found."`. -/
def noTextFound : Str := "No text found.".toList

/-- A string or a missing value, as a `Value`. -/
def Value.ofOption : Option Str → Value
  | none => .undefined
  | some s => .str s

/-- The optional chain `responses[0]?.fullTextAnnotation?.text`. -/
def annotationText (responses : List (Option AnnotateResponse)) : Value :=
  match responses[0]? with
  | some (some r) =>
    match r.fullTextAnnotation with
    | some a => Value.ofOption a.text
    | none => .undefined
  | _ => .undefined

/-- The constant `fullText` of `analyzeImage`, given the list `responses`. -/
def fullText (responses : List (Option AnnotateResponse)) : Value :=
  jsOr (annotationText responses) (.str noTextFound)

/-- The expression `visionRes.data.responses[0]?.fullTextAnnotation?.text || ...`
on the whole body: `none` when indexing a missing `responses` throws. -/
def fullTextOf (data : VisionData) : Option Value :=
  data.responses.map fullText

/-- The expression `aiRes.data.choices[0].message.content` followed by the call
`responseText.split`: `none` when a property read or the call throws. -/
def responseTextOf (data : CompletionData) : Option Str :=
  match data.choices with
  | some choices =>
    match choices[0]? with
    | some (some choice) =>
      match choice.message with
      | some message => message.content
      | none => none
    | _ => none
  | none => none

/-- The state of the screen that the scan reads or writes, and the rest of the form. -/
structure Screen where
  medicationName : Value
  dosageAmount : Value
  dosageForm : Value
  instructions : Value
  frequency : Str
  dailyReminder : Bool
  reminderTime : Int
  refillReminder : Bool
  refillDate : Int
  imageUri : Option Str
  isLoading : Bool
  deriving DecidableEq, Repr

/-- The object `medicationData` passed to `addDoc`; a date is kept as its time
value, `none` for `null`. -/
structure MedicationData where
  name : Value
  dosageAmount : Value
  dosageForm : Value
  instructions : Value
  frequency : Str
  dailyReminder : Bool
  reminderTime : Option Int
  refillReminder : Bool
  refillDate : Option Int
  createdAt : Int
  deriving DecidableEq, Repr

/-- What a run does to the outside, in order. -/
inductive Effect where
  | visionRequest (base64Image : Str) : Effect
  | completionRequest (userContent : Str) : Effect
  | alert (title message : Str) : Effect
  | permissionRequest : Effect
  | cameraLaunch : Effect
  | addDoc (uid : Str) (data : MedicationData) : Effect
  | routerReplace (path : Str) : Effect
  | uncaughtTypeError : Effect
  deriving DecidableEq, Repr

/-- A screen state together with the effects performed so far. -/
structure Run where
  screen : Screen
  effects : List Effect
  deriving DecidableEq, Repr

/-- The `catch` block of `analyzeImage`. -/
def catchBlock (r : Run) : Run :=
  { r with effects := r.effects ++
      [.alert "Scan Error".toList "Failed to process image text.".toList] }

/-- The four setter calls at the end of the `try` block. -/
def setExtractedFields (s : Screen) (d : Draft) : Screen :=
  { s with medicationName := d.name, dosageAmount := d.dosageAmount,
           dosageForm := d.dosageForm, instructions := d.instructions }

/-- The content of the user message: the template literal with `fullText`. -/
def userContent (fullText : Value) : Str :=
  "Text:\n".toList ++ fullText.toStr

/-- The call `setIsLoading(b)`. -/
def setIsLoading (b : Bool) (r : Run) : Run :=
  { r with screen := { r.screen with isLoading := b } }

/-- A call that reaches the outside (`axios.post`, `Alert.alert`): the effect is
appended to the effects performed so far. -/
def perform (e : Effect) (r : Run) : Run :=
  { r with effects := r.effects ++ [e] }

/-- The four setter calls at the end of the `try` block, on a configuration. -/
def setFields (d : Draft) (r : Run) : Run :=
  { r with screen := setExtractedFields r.screen d }

/-- The `finally` block of `analyzeImage`. -/
def finallyBlock (r : Run) : Run :=
  setIsLoading false r

/-- The statements that a run of `analyzeImage` executes, in order, each as a
transformer of the configuration: `setIsLoading(true)`, the OCR request, then
either the `catch` block (when the request or the reading of `fullText` throws)
or the text-generation request followed by the `catch` block (when that request
or the reading of `responseText` throws) or by the four setters, and last the
`finally` block.  Which statements run depends on the replies only. -/
def analyzeImageSteps (sv : Services) (base64Image : Str) : List (Run → Run) :=
  setIsLoading true :: perform (.visionRequest base64Image) ::
    ((match sv.vision base64Image with
      | none => [catchBlock]
      | some visionData =>
        match fullTextOf visionData with
        | none => [catchBlock]
        | some fullText =>
          perform (.completionRequest (userContent fullText)) ::
            (match sv.completion (userContent fullText) with
              | none => [catchBlock]
              | some aiData =>
                match responseTextOf aiData with
                | none => [catchBlock]
                | some responseText => [setFields (parse responseText)])) ++
      [finallyBlock])

/-- The configuration after a list of statements has run. -/
def runSteps : List (Run → Run) → Run → Run
  | [], r => r
  | step :: steps, r => runSteps steps (step r)

/-- The configurations a list of statements goes through: the one after each
statement, in order. -/
def configurationsAfter : List (Run → Run) → Run → List Run
  | [], _ => []
  | step :: steps, r => step r :: configurationsAfter steps (step r)

/-- The function `analyzeImage`: busy flag, OCR request, text extraction,
text-generation request, field parsing, and the `catch` and `finally` blocks;
the result of running its statements from the screen state `s`. -/
def analyzeImage (sv : Services) (base64Image : Str) (s : Screen) : Run :=
  runSteps (analyzeImageSteps sv base64Image) ⟨s, []⟩

/-- The successive configurations of a run of `analyzeImage`: the one after each
of its statements. -/
def analyzeImageHistory (sv : Services) (base64Image : Str) (s : Screen) : List Run :=
  configurationsAfter (analyzeImageSteps sv base64Image) ⟨s, []⟩

/-- The state of the screen when it is first shown: the initial values of the
`useState` calls, with `now` for the two `new Date()`. -/
def initialScreen (now : Int) : Screen where
  medicationName := .str []
  dosageAmount := .str []
  dosageForm := .str []
  instructions := .str []
  frequency := []
  dailyReminder := false
  reminderTime := now
  refillReminder := false
  refillDate := now
  imageUri := none
  isLoading := false

/-- One entry of `result.assets`. -/
structure Asset where
  uri : Str
  base64 : Str
  deriving DecidableEq, Repr

/-- The value `launchCameraAsync` resolves to. -/
structure CameraResult where
  canceled : Bool
  assets : List Asset
  deriving DecidableEq, Repr

/-- The device as `pickImage` sees it: the status that
`requestCameraPermissionsAsync` resolves to and the result of the camera UI. -/
structure Device where
  permissionStatus : Str
  camera : CameraResult
  deriving DecidableEq, Repr

/-- The function `pickImage`.  Reading `result.assets[0].uri` of a result that is
not cancelled and has no asset throws outside any `try`. -/
def pickImage (dev : Device) (sv : Services) (s : Screen) : Run :=
  if dev.permissionStatus ≠ "granted".toList then
    ⟨s, [.permissionRequest,
      .alert "Permission Denied".toList "Camera access is required.".toList]⟩
  else if !dev.camera.canceled then
    match dev.camera.assets[0]? with
    | none => ⟨s, [.permissionRequest, .cameraLaunch, .uncaughtTypeError]⟩
    | some asset =>
      let r := analyzeImage sv asset.base64 { s with imageUri := some asset.uri }
      { r with effects := [.permissionRequest, .cameraLaunch] ++ r.effects }
  else ⟨s, [.permissionRequest, .cameraLaunch]⟩

/-- What `handleAddMedication` reads from outside the screen: `auth.currentUser`
(its `uid`), whether `addDoc` resolves for a record, and the clock. -/
structure Backend where
  currentUser : Option Str
  addDocResolves : Str → MedicationData → Bool
  now : Int

/-- The object literal `medicationData`. -/
def medicationData (now : Int) (s : Screen) : MedicationData where
  name := s.medicationName
  dosageAmount := s.dosageAmount
  dosageForm := s.dosageForm
  instructions := s.instructions
  frequency := s.frequency
  dailyReminder := s.dailyReminder
  reminderTime := if s.dailyReminder then some s.reminderTime else none
  refillReminder := s.refillReminder
  refillDate := if s.refillReminder then some s.refillDate else none
  createdAt := now

/-- The function `handleAddMedication`: the effects of one call (the screen state
is not changed). -/
def handleAddMedication (be : Backend) (s : Screen) : List Effect :=
  match be.currentUser with
  | none => [.alert "Not logged in".toList "Please log in to save medications.".toList]
  | some uid =>
    if !s.medicationName.truthy || !s.dosageAmount.truthy || !s.dosageForm.truthy then
      [.alert "Missing fields".toList "Please complete all required fields.".toList]
    else if be.addDocResolves uid (medicationData be.now s) then
      [.addDoc uid (medicationData be.now s),
        .alert "Success".toList "Medication added!".toList,
        .routerReplace "/home".toList]
    else
      [.addDoc uid (medicationData be.now s),
        .alert "Error".toList "Failed to save medication. Try again.".toList]

/-- Whether an effect is a request to one of the two network services. -/
def Effect.isRequest : Effect → Bool
  | .visionRequest _ => true
  | .completionRequest _ => true
  | _ => false

/-- The alert of the `catch` block of `analyzeImage`. -/
def scanErrorAlert : Effect :=
  .alert "Scan Error".toList "Failed to process image text.".toList

/-- The second component the code destructures from a line: `value`. -/
def lineValue (line : Str) : Option Str :=
  (keyValue line).2

/-! ## The colour of a medication: `getColorFromName` of `src/app/home.jsx` -/

/-- The array `colorOptions`. -/
def colorOptions : List Str :=
  ["#FFB6B9".toList, "#FFDAC1".toList, "#E2F0CB".toList, "#B5EAD7".toList,
   "#C7CEEA".toList, "#D5AAFF".toList, "#FFABAB".toList, "#FFD6A5".toList,
   "#FDFFB6".toList, "#CAFFBF".toList, "#A0E7E5".toList, "#B4F8C8".toList,
   "#FBE7C6".toList, "#FFAEBC".toList, "#A9DEF9".toList]

/-- The abstract operation `ToInt32`: the integer modulo 2^32, as a signed
32-bit value. -/
def toInt32 (x : Int) : Int :=
  (x + 2147483648) % 4294967296 - 2147483648

/-- The operator `x << 5` on numbers: a 32-bit signed left shift. -/
def shiftLeft5 (x : Int) : Int :=
  toInt32 (toInt32 x * 32)

/-- The UTF-16 code units of a character: what `charCodeAt` reads. -/
def charCodes (c : Char) : List Nat :=
  if c.toNat < 65536 then [c.toNat]
  else [55296 + (c.toNat - 65536) / 1024, 56320 + (c.toNat - 65536) % 1024]

/-- The UTF-16 code units of a string: `name.charCodeAt(i)` for `i < name.length`. -/
def codeUnits : Str → List Nat
  | [] => []
  | c :: cs => charCodes c ++ codeUnits cs

/-- One turn of the loop: `hash = code + ((hash << 5) - hash)`. -/
def hashStep (hash : Int) (code : Nat) : Int :=
  (code : Int) + (shiftLeft5 hash - hash)

/-- The variable `hash` after the loop over the code units. -/
def hashOf (codes : List Nat) : Int :=
  codes.foldl hashStep 0

/-- The constant `index`: `Math.abs(hash) % colorOptions.length`. -/
def colorIndex (codes : List Nat) : Nat :=
  (hashOf codes).natAbs % colorOptions.length

/-- The function `getColorFromName` on the code units of the name. -/
def colorOfCodes (codes : List Nat) : Value :=
  Value.ofOption colorOptions[colorIndex codes]?

/-- The function `getColorFromName`. -/
def getColorFromName (name : Str) : Value :=
  colorOfCodes (codeUnits name)

/-! ## Lemmas on `split`, `joinLines` and `trim` -/

theorem split_ne_nil (sep : Char) (s : Str) : split sep s ≠ [] := by
  cases s with
  | nil => simp [split]
  | cons c cs =>
    simp only [split]
    by_cases h : c = sep <;> simp [h]

theorem split_append_sep (sep : Char) (a b : Str) :
    split sep (a ++ sep :: b) = split sep a ++ split sep b := by
  induction a with
  | nil => simp [split]
  | cons c a ih =>
    have e1 : split sep (c :: (a ++ sep :: b)) =
        if c = sep then [] :: split sep (a ++ sep :: b)
        else (c :: (split sep (a ++ sep :: b)).headD []) :: (split sep (a ++ sep :: b)).tail := rfl
    have e2 : split sep (c :: a) =
        if c = sep then [] :: split sep a
        else (c :: (split sep a).headD []) :: (split sep a).tail := rfl
    rw [List.cons_append, e1, e2, ih]
    by_cases h : c = sep
    · simp [h]
    · simp only [h, if_false]
      have hne := split_ne_nil sep a
      cases hs : split sep a with
      | nil => exact absurd hs hne
      | cons p ps => simp

theorem split_of_not_mem (sep : Char) (s : Str) (h : sep ∉ s) : split sep s = [s] := by
  induction s with
  | nil => rfl
  | cons c cs ih =>
    have hc : c ≠ sep := fun e => h (by simp [e])
    have hcs : sep ∉ cs := fun e => h (List.mem_cons_of_mem _ e)
    simp [split, hc, ih hcs]

theorem split_cons_first (sep : Char) (a b : Str) (h : sep ∉ a) :
    split sep (a ++ sep :: b) = a :: split sep b := by
  rw [split_append_sep, split_of_not_mem sep a h]
  rfl

theorem mem_of_mem_split (sep : Char) (s p : Str) (c : Char)
    (hp : p ∈ split sep s) (hc : c ∈ p) : c ∈ s := by
  induction s generalizing p with
  | nil =>
    simp only [split, List.mem_singleton] at hp
    subst hp
    exact hc
  | cons d cs ih =>
    have hne := split_ne_nil sep cs
    cases hs : split sep cs with
    | nil => exact absurd hs hne
    | cons q qs =>
      rw [hs] at ih
      simp only [split, hs] at hp
      by_cases h : d = sep
      · simp only [h, if_true, List.mem_cons] at hp
        rcases hp with hp | hp | hp
        · subst hp; simp at hc
        · exact List.mem_cons_of_mem _ (ih p (by simp [hp]) hc)
        · exact List.mem_cons_of_mem _ (ih p (by simp [hp]) hc)
      · simp only [h, if_false, List.headD_cons, List.tail_cons, List.mem_cons] at hp
        rcases hp with hp | hp
        · subst hp
          rcases List.mem_cons.mp hc with hc | hc
          · simp [hc]
          · exact List.mem_cons_of_mem _ (ih q (by simp) hc)
        · exact List.mem_cons_of_mem _ (ih p (by simp [hp]) hc)

theorem sep_not_mem_of_mem_split (sep : Char) (s p : Str)
    (hp : p ∈ split sep s) : sep ∉ p := by
  induction s generalizing p with
  | nil =>
    simp only [split, List.mem_singleton] at hp
    subst hp
    simp
  | cons d cs ih =>
    have hne := split_ne_nil sep cs
    cases hs : split sep cs with
    | nil => exact absurd hs hne
    | cons q qs =>
      rw [hs] at ih
      simp only [split, hs] at hp
      by_cases h : d = sep
      · simp only [h, if_true, List.mem_cons] at hp
        rcases hp with hp | hp | hp
        · subst hp; simp
        · exact ih p (by simp [hp])
        · exact ih p (by simp [hp])
      · simp only [h, if_false, List.headD_cons, List.tail_cons, List.mem_cons] at hp
        rcases hp with hp | hp
        · subst hp
          intro hmem
          rcases List.mem_cons.mp hmem with e | e
          · exact h e.symm
          · exact ih q (by simp) e
        · exact ih p (by simp [hp])

theorem split_joinLines (ls : List Str) (hne : ls ≠ []) (h : ∀ l ∈ ls, '\n' ∉ l) :
    split '\n' (joinLines ls) = ls := by
  induction ls with
  | nil => exact absurd rfl hne
  | cons l rest ih =>
    cases rest with
    | nil => exact split_of_not_mem _ _ (h l (by simp))
    | cons l2 rest =>
      simp only [joinLines]
      rw [split_cons_first _ _ _ (h l (by simp)),
        ih (by simp) (fun x hx => h x (List.mem_cons_of_mem _ hx))]

theorem split_insertLine (text : Str) (k : Nat) (line : Str) (hn : '\n' ∉ line) :
    split '\n' (insertLine text k line) =
      (split '\n' text).take k ++ line :: (split '\n' text).drop k := by
  unfold insertLine
  apply split_joinLines
  · simp
  · intro l hl
    rcases List.mem_append.mp hl with hl | hl
    · exact sep_not_mem_of_mem_split _ text l (List.mem_of_mem_take hl)
    · rcases List.mem_cons.mp hl with hl | hl
      · subst hl; exact hn
      · exact sep_not_mem_of_mem_split _ text l (List.mem_of_mem_drop hl)

theorem dropWhile_append_of_all (p : Char → Bool) (w s : Str) (hw : ∀ c ∈ w, p c = true) :
    (w ++ s).dropWhile p = s.dropWhile p := by
  induction w with
  | nil => rfl
  | cons c w ih =>
    have hc : p c = true := hw c (by simp)
    simp only [List.cons_append, List.dropWhile_cons, hc, if_true]
    exact ih (fun x hx => hw x (List.mem_cons_of_mem _ hx))

theorem trim_append_of_all (w s : Str) (hw : ∀ c ∈ w, isWhiteSpace c = true) :
    trim (w ++ s) = trim s := by
  unfold trim
  rw [dropWhile_append_of_all _ w s hw]

/-! ## Lemmas on the `forEach` callback and on `parsedData` -/

theorem keyValue_fst (line : Str) :
    (keyValue line).1 = some (trim ((split ':' line).headD [])) := by
  have hne := split_ne_nil ':' line
  unfold keyValue
  cases hs : split ':' line with
  | nil => exact absurd hs hne
  | cons p ps => simp

theorem keyValue_of_no_colon (line : Str) (h : ':' ∉ line) :
    keyValue line = (some (trim line), none) := by
  unfold keyValue
  rw [split_of_not_mem _ _ h]
  rfl

theorem lineLabel_of_no_colon (line : Str) (h : ':' ∉ line) : lineLabel line = none := by
  unfold lineLabel
  rw [keyValue_of_no_colon line h]

theorem lineLabel_eq_labelOf (line x : Str) (h : lineLabel line = some x) :
    x = labelOf line := by
  have hk := keyValue_fst line
  unfold lineLabel at h
  unfold labelOf
  rcases hkv : keyValue line with ⟨_ | key, _ | value⟩ <;> rw [hkv] at h hk <;>
    simp at h hk
  rw [List.headD_eq_head?_getD, ← hk]
  exact h.2.symm

theorem processLine_of_lineLabel_none (pd : Obj) (line : Str) (h : lineLabel line = none) :
    processLine pd line = pd := by
  unfold lineLabel at h
  unfold processLine
  rcases hkv : keyValue line with ⟨_ | key, _ | value⟩ <;> rw [hkv] at h
  all_goals simp at h ⊢
  simp [h]

theorem getProp_setProp_of_ne (pd : Obj) (k v K : Str) (h : k ≠ K) :
    getProp (setProp pd k v) K = getProp pd K := by
  unfold setProp
  by_cases hp : k = "__proto__".toList
  · rw [if_pos hp]
  · rw [if_neg hp]
    simp [getProp, h]

theorem getProp_setProp_congr (pd pd2 : Obj) (k v K : Str)
    (h : getProp pd K = getProp pd2 K) :
    getProp (setProp pd k v) K = getProp (setProp pd2 k v) K := by
  unfold setProp
  by_cases hp : k = "__proto__".toList
  · rw [if_pos hp, if_pos hp]
    exact h
  · rw [if_neg hp, if_neg hp]
    simp [getProp, h]

theorem getProp_processLine_of_ne (pd : Obj) (line K : Str) (h : lineLabel line ≠ some K) :
    getProp (processLine pd line) K = getProp pd K := by
  unfold lineLabel at h
  unfold processLine
  rcases hkv : keyValue line with ⟨_ | key, _ | value⟩ <;> rw [hkv] at h
  all_goals simp at h ⊢
  by_cases hk : key = []
  · simp [hk]
  · simp only [hk, if_false]
    exact getProp_setProp_of_ne _ _ _ _ (h hk)

theorem getProp_processLine_congr (pd pd2 : Obj) (line K : Str)
    (h : getProp pd K = getProp pd2 K) :
    getProp (processLine pd line) K = getProp (processLine pd2 line) K := by
  unfold processLine
  rcases hkv : keyValue line with ⟨_ | key, _ | value⟩ <;> simp [h]
  by_cases hk : key = []
  · simp [hk, h]
  · simp only [hk, if_false]
    exact getProp_setProp_congr _ _ _ _ _ h

theorem getProp_foldl_congr (ls : List Str) (pd pd2 : Obj) (K : Str)
    (h : getProp pd K = getProp pd2 K) :
    getProp (ls.foldl processLine pd) K = getProp (ls.foldl processLine pd2) K := by
  induction ls generalizing pd pd2 with
  | nil => exact h
  | cons l ls ih => exact ih _ _ (getProp_processLine_congr pd pd2 l K h)

theorem getProp_foldl_of_ne (ls : List Str) (pd : Obj) (K : Str)
    (h : ∀ l ∈ ls, lineLabel l ≠ some K) :
    getProp (ls.foldl processLine pd) K = getProp pd K := by
  induction ls generalizing pd with
  | nil => rfl
  | cons l ls ih =>
    rw [List.foldl_cons, ih _ (fun x hx => h x (List.mem_cons_of_mem _ hx))]
    exact getProp_processLine_of_ne pd l K (h l (by simp))

theorem parsedData_insertLine (text : Str) (k : Nat) (line : Str) (hn : '\n' ∉ line) :
    parsedData (insertLine text k line) =
      ((split '\n' text).drop k).foldl processLine
        (processLine (((split '\n' text).take k).foldl processLine []) line) := by
  unfold parsedData
  rw [split_insertLine text k line hn, List.foldl_append, List.foldl_cons]

theorem parsedData_take_drop (text : Str) (k : Nat) :
    parsedData text =
      ((split '\n' text).drop k).foldl processLine
        (((split '\n' text).take k).foldl processLine []) := by
  unfold parsedData
  rw [← List.foldl_append, List.take_append_drop]

/-- Inserting a line that does not assign to `K` leaves `parsedData[K]` unchanged. -/
theorem getProp_parsedData_insertLine (text : Str) (k : Nat) (line K : Str)
    (hn : '\n' ∉ line) (h : lineLabel line ≠ some K) :
    getProp (parsedData (insertLine text k line)) K = getProp (parsedData text) K := by
  rw [parsedData_insertLine text k line hn, parsedData_take_drop text k]
  exact getProp_foldl_congr _ _ _ K (getProp_processLine_of_ne _ line K h)

/-- Replacing an inserted line by one with the same effect on `parsedData`
leaves `parsedData` unchanged. -/
theorem parsedData_insertLine_congr (text : Str) (k : Nat) (l1 l2 : Str)
    (h1 : '\n' ∉ l1) (h2 : '\n' ∉ l2) (h : ∀ pd, processLine pd l1 = processLine pd l2) :
    parsedData (insertLine text k l1) = parsedData (insertLine text k l2) := by
  rw [parsedData_insertLine text k l1 h1, parsedData_insertLine text k l2 h2, h]

theorem draftOf_congr (pd pd2 : Obj)
    (h : ∀ K ∈ recognised, getProp pd K = getProp pd2 K) : draftOf pd = draftOf pd2 := by
  unfold draftOf
  rw [h _ (by simp [recognised]), h "Dosage".toList (by simp [recognised]),
    h "Dosage Form".toList (by simp [recognised]), h "Instructions".toList (by simp [recognised])]

theorem draftOf_congr_jsOr (pd pd2 : Obj)
    (h : ∀ K ∈ recognised, jsOr (getProp pd K) (.str []) = jsOr (getProp pd2 K) (.str [])) :
    draftOf pd = draftOf pd2 := by
  unfold draftOf
  rw [h _ (by simp [recognised]), h "Dosage".toList (by simp [recognised]),
    h "Dosage Form".toList (by simp [recognised]), h "Instructions".toList (by simp [recognised])]

theorem jsOr_empty_isStr (v : Value) : ∃ s, jsOr v (.str []) = .str s := by
  cases v with
  | undefined => exact ⟨[], rfl⟩
  | str s =>
    by_cases h : s = []
    · exact ⟨[], by simp [jsOr, Value.truthy, h]⟩
    · exact ⟨s, by simp [jsOr, Value.truthy, h]⟩

theorem draftOf_nil : draftOf [] = emptyDraft := rfl

theorem getProp_parsedData_of_absent (text K : Str)
    (h : ∀ l ∈ split '\n' text, lineLabel l ≠ some K) :
    getProp (parsedData text) K = .undefined :=
  getProp_foldl_of_ne (split '\n' text) [] K h

/-! ## Field parsing: the claims -/

/-- C1: field parsing is a total function of the input string; each of the four
draft fields is a string (never `undefined`), and a field whose label no line of
the input assigns is the empty string. -/
theorem parse_total_strings (text : Str) :
    (∃ a b c d, parse text = ⟨.str a, .str b, .str c, .str d⟩) ∧
    ((∀ l ∈ split '\n' text, lineLabel l ≠ some "Medication Name".toList) →
      (parse text).name = .str []) ∧
    ((∀ l ∈ split '\n' text, lineLabel l ≠ some "Dosage".toList) →
      (parse text).dosageAmount = .str []) ∧
    ((∀ l ∈ split '\n' text, lineLabel l ≠ some "Dosage Form".toList) →
      (parse text).dosageForm = .str []) ∧
    ((∀ l ∈ split '\n' text, lineLabel l ≠ some "Instructions".toList) →
      (parse text).instructions = .str []) := by
  refine ⟨?_, ?_, ?_, ?_, ?_⟩
  · obtain ⟨a, ha⟩ := jsOr_empty_isStr (getProp (parsedData text) "Medication Name".toList)
    obtain ⟨b, hb⟩ := jsOr_empty_isStr (getProp (parsedData text) "Dosage".toList)
    obtain ⟨c, hc⟩ := jsOr_empty_isStr (getProp (parsedData text) "Dosage Form".toList)
    obtain ⟨d, hd⟩ := jsOr_empty_isStr (getProp (parsedData text) "Instructions".toList)
    refine ⟨a, b, c, d, ?_⟩
    unfold parse draftOf
    rw [ha, hb, hc, hd]
  all_goals
    intro h
    unfold parse draftOf
    simp only
    rw [getProp_parsedData_of_absent text _ h]
    rfl

/-- C1, at the input `"Dosage: 10mg"`: no line assigns `Medication Name`, so the
name is the empty string. -/
theorem parse_total_strings_witness :
    (parse "Dosage: 10mg".toList).name = .str [] :=
  (parse_total_strings "Dosage: 10mg".toList).2.1 (by decide)

/-- C2: the code calls `line.split(":")`, which splits on every colon, and keeps
only the first two pieces, so the stored value ends at the second colon: the line
`"Instructions: Take at 8:00 am"` yields `"Take at 8"`, not `"Take at 8:00 am"`. -/
theorem parse_value_cut_at_second_colon :
    keyValue "Instructions: Take at 8:00 am".toList =
      (some "Instructions".toList, some "Take at 8".toList) ∧
    (parse "Instructions: Take at 8:00 am".toList).instructions = .str "Take at 8".toList ∧
    (parse "Instructions: Take at 8:00 am".toList).instructions ≠
      .str "Take at 8:00 am".toList := by
  decide

/-- C3: on the prompt-format text with the newline-free values `"Amoxicillin"`,
`"500 mg"`, `"Capsule"` and `"Take at 8:00 am"` the instructions come out as
`"Take at 8"`: the fourth field is not recovered. -/
theorem parse_promptFormat_colon_value :
    promptFormat "Amoxicillin".toList "500 mg".toList "Capsule".toList
        "Take at 8:00 am".toList =
      "- Medication Name: Amoxicillin\n- Dosage: 500 mg\n- Dosage Form: Capsule\n- Instructions: Take at 8:00 am".toList ∧
    parse (promptFormat "Amoxicillin".toList "500 mg".toList "Capsule".toList
        "Take at 8:00 am".toList) =
      ⟨.str "Amoxicillin".toList, .str "500 mg".toList, .str "Capsule".toList,
        .str "Take at 8".toList⟩ ∧
    trim "Take at 8:00 am".toList = "Take at 8:00 am".toList := by
  decide

/-- C4: a text without any colon parses to the draft with four empty strings. -/
theorem parse_of_no_colon (text : Str) (h : ':' ∉ text) : parse text = emptyDraft := by
  unfold parse
  rw [← draftOf_nil]
  apply draftOf_congr
  intro K _
  apply getProp_parsedData_of_absent
  intro l hl
  rw [lineLabel_of_no_colon l (fun hc => h (mem_of_mem_split _ text l ':' hl hc))]
  simp

/-- C4, at the OCR sentinel `"No text found."`. -/
theorem parse_of_no_colon_witness :
    ':' ∉ "No text found.".toList ∧ parse "No text found.".toList = emptyDraft :=
  ⟨by decide, parse_of_no_colon _ (by decide)⟩

/-- C5: inserting a line without a colon at any position of any text leaves the
draft unchanged. -/
theorem parse_insert_colon_free_line (text : Str) (k : Nat) (line : Str)
    (hn : '\n' ∉ line) (hc : ':' ∉ line) :
    parse (insertLine text k line) = parse text := by
  unfold parse
  apply draftOf_congr
  intro K _
  apply getProp_parsedData_insertLine text k line K hn
  rw [lineLabel_of_no_colon line hc]
  simp

/-- C5, at Scenario 3: the garbled line inserted between the two recognised
lines changes nothing, and the draft is the expected one. -/
theorem parse_insert_colon_free_line_witness :
    insertLine "Medication Name: Lisinopril\nDosage: 10mg".toList 1
        "random garbage no colon".toList =
      "Medication Name: Lisinopril\nrandom garbage no colon\nDosage: 10mg".toList ∧
    parse "Medication Name: Lisinopril\nrandom garbage no colon\nDosage: 10mg".toList =
      ⟨.str "Lisinopril".toList, .str "10mg".toList, .str [], .str []⟩ ∧
    parse (insertLine "Medication Name: Lisinopril\nDosage: 10mg".toList 1
        "random garbage no colon".toList) =
      parse "Medication Name: Lisinopril\nDosage: 10mg".toList :=
  ⟨by decide, by decide,
    parse_insert_colon_free_line _ 1 _ (by decide) (by decide)⟩

theorem lineLabel_ne_of_labelOf_ne (line K : Str) (h : labelOf line ≠ K) :
    lineLabel line ≠ some K :=
  fun e => h (lineLabel_eq_labelOf line K e).symm

theorem labelOf_cons_first (a rest : Str) (h : ':' ∉ a) :
    labelOf (a ++ ':' :: rest) = cleanedKey (trim a) := by
  unfold labelOf
  rw [split_cons_first _ _ _ h]
  rfl

/-- C6 as worded fails: for the line `" -  Dosage: 5 mg"` the text before the
colon, trimmed and with one leading `"- "` removed, is `" Dosage"` (and with the
marker removed first and trimmed after, `"-  Dosage"`), which is none of the four
labels, yet inserting the line sets `dosageAmount`. -/
theorem parse_insert_worded_label_counterexample :
    labelAsWorded " -  Dosage: 5 mg".toList = " Dosage".toList ∧
    labelAsWorded " -  Dosage: 5 mg".toList ∉ recognised ∧
    trim (stripMarker ((split ':' " -  Dosage: 5 mg".toList).headD [])) ∉ recognised ∧
    '\n' ∉ " -  Dosage: 5 mg".toList ∧
    (parse []).dosageAmount = .str [] ∧
    (parse (insertLine [] 0 " -  Dosage: 5 mg".toList)).dosageAmount =
      .str "5 mg".toList := by
  decide

/-- C6, amended: with the label of a line taken as the code computes it (text
before the first colon, trimmed, one leading `"- "` removed, trimmed again), a
line whose label differs from a recognised label leaves that label's field
unchanged wherever it is inserted; a line whose label is none of the four leaves
the whole draft unchanged; a `Dosage Form` line never changes `dosageAmount` and
a `Dosage` line never changes `dosageForm`. -/
theorem parse_insert_unrecognised_line (text : Str) (k : Nat) (line : Str)
    (hn : '\n' ∉ line) :
    (labelOf line ≠ "Medication Name".toList →
      (parse (insertLine text k line)).name = (parse text).name) ∧
    (labelOf line ≠ "Dosage".toList →
      (parse (insertLine text k line)).dosageAmount = (parse text).dosageAmount) ∧
    (labelOf line ≠ "Dosage Form".toList →
      (parse (insertLine text k line)).dosageForm = (parse text).dosageForm) ∧
    (labelOf line ≠ "Instructions".toList →
      (parse (insertLine text k line)).instructions = (parse text).instructions) ∧
    (labelOf line ∉ recognised → parse (insertLine text k line) = parse text) ∧
    (∀ x : Str, '\n' ∉ x →
      (parse (insertLine text k ("Dosage Form: ".toList ++ x))).dosageAmount =
        (parse text).dosageAmount) ∧
    (∀ x : Str, '\n' ∉ x →
      (parse (insertLine text k ("Dosage: ".toList ++ x))).dosageForm =
        (parse text).dosageForm) := by
  have key : ∀ (l K : Str), '\n' ∉ l → labelOf l ≠ K →
      getProp (parsedData (insertLine text k l)) K = getProp (parsedData text) K :=
    fun l K hl h => getProp_parsedData_insertLine text k l K hl (lineLabel_ne_of_labelOf_ne l K h)
  refine ⟨?_, ?_, ?_, ?_, ?_, ?_, ?_⟩
  · intro h
    show jsOr _ _ = jsOr _ _
    rw [key line _ hn h]
  · intro h
    show jsOr _ _ = jsOr _ _
    rw [key line _ hn h]
  · intro h
    show jsOr _ _ = jsOr _ _
    rw [key line _ hn h]
  · intro h
    show jsOr _ _ = jsOr _ _
    rw [key line _ hn h]
  · intro h
    apply draftOf_congr
    intro K hK
    exact key line K hn (fun e => h (e ▸ hK))
  · intro x hx
    have hl : labelOf ("Dosage Form: ".toList ++ x) = "Dosage Form".toList :=
      labelOf_cons_first "Dosage Form".toList (' ' :: x) (by decide)
    have hnl : '\n' ∉ "Dosage Form: ".toList ++ x := by
      intro hm
      rcases List.mem_append.mp hm with hm | hm
      · exact absurd hm (by decide)
      · exact hx hm
    show jsOr _ _ = jsOr _ _
    rw [key _ _ hnl (by rw [hl]; decide)]
  · intro x hx
    have hl : labelOf ("Dosage: ".toList ++ x) = "Dosage".toList :=
      labelOf_cons_first "Dosage".toList (' ' :: x) (by decide)
    have hnl : '\n' ∉ "Dosage: ".toList ++ x := by
      intro hm
      rcases List.mem_append.mp hm with hm | hm
      · exact absurd hm (by decide)
      · exact hx hm
    show jsOr _ _ = jsOr _ _
    rw [key _ _ hnl (by rw [hl]; decide)]

/-- C6, amended, at the text `"Dosage: 10mg"` with the line `"Strength: high"`
inserted in front: the draft is unchanged. -/
theorem parse_insert_unrecognised_line_witness :
    '\n' ∉ "Strength: high".toList ∧ labelOf "Strength: high".toList ∉ recognised ∧
    parse (insertLine "Dosage: 10mg".toList 0 "Strength: high".toList) =
      parse "Dosage: 10mg".toList :=
  ⟨by decide, by decide,
    (parse_insert_unrecognised_line "Dosage: 10mg".toList 0 "Strength: high".toList
      (by decide)).2.2.2.2.1 (by decide)⟩

theorem linesOf_append (xs ys : List Str) : linesOf (xs ++ ys) = linesOf xs ++ linesOf ys := by
  induction xs with
  | nil => rfl
  | cons x xs ih => simp [linesOf, ih]

theorem split_joinLines_linesOf (ls : List Str) (hne : ls ≠ []) :
    split '\n' (joinLines ls) = linesOf ls := by
  induction ls with
  | nil => exact absurd rfl hne
  | cons l rest ih =>
    cases rest with
    | nil => simp [joinLines, linesOf]
    | cons l2 rest =>
      simp only [joinLines]
      rw [split_append_sep, ih (by simp)]
      rfl

theorem parsedData_joinLines_around (pre post : List Str) (line : Str) (hn : '\n' ∉ line) :
    parsedData (joinLines (pre ++ line :: post)) =
      (linesOf post).foldl processLine
        (processLine ((linesOf pre).foldl processLine []) line) := by
  unfold parsedData
  rw [split_joinLines_linesOf _ (by simp), linesOf_append]
  simp only [linesOf]
  rw [split_of_not_mem _ _ hn]
  simp [List.foldl_append]

theorem keyValue_cons_first (a rest : Str) (h : ':' ∉ a) :
    keyValue (a ++ ':' :: rest) =
      (some (trim a), some (trim ((split ':' rest).headD []))) := by
  have hne := split_ne_nil ':' rest
  unfold keyValue
  rw [split_cons_first _ _ _ h]
  cases hs : split ':' rest with
  | nil => exact absurd hs hne
  | cons p ps => simp

theorem processLine_cons_first (pd : Obj) (a rest : Str) (h : ':' ∉ a) :
    processLine pd (a ++ ':' :: rest) =
      if !(trim a).isEmpty then
        setProp pd (cleanedKey (trim a)) (trim ((split ':' rest).headD []))
      else pd := by
  unfold processLine
  rw [keyValue_cons_first a rest h]

theorem recognised_facts : ∀ L ∈ recognised,
    ':' ∉ L ∧ '\n' ∉ L ∧ trim L = L ∧ cleanedKey L = L ∧
    trim ('-' :: ' ' :: L) = '-' :: ' ' :: L ∧ cleanedKey ('-' :: ' ' :: L) = L ∧
    L ≠ "__proto__".toList ∧ (!L.isEmpty) = true := by
  decide

theorem not_mem_of_all_whiteSpace (w : Str) (c : Char) (hc : isWhiteSpace c = false)
    (hw : ∀ x ∈ w, isWhiteSpace x = true) : c ∉ w := by
  intro hm
  rw [hw c hm] at hc
  exact absurd hc (by simp)

theorem processLine_marked (pd : Obj) (L : Str) (hL : L ∈ recognised) (w rest : Str)
    (hw : ∀ c ∈ w, isWhiteSpace c = true) :
    processLine pd ((w ++ '-' :: ' ' :: L) ++ ':' :: rest) =
      processLine pd (L ++ ':' :: rest) := by
  obtain ⟨hc, _, htL, hcL, htm, hcm, _, hne⟩ := recognised_facts L hL
  have hcw : ':' ∉ w := not_mem_of_all_whiteSpace w ':' (by decide) hw
  have hcm2 : ':' ∉ w ++ '-' :: ' ' :: L := by
    intro hm
    rcases List.mem_append.mp hm with hm | hm
    · exact hcw hm
    · rcases List.mem_cons.mp hm with e | hm
      · exact absurd e (by decide)
      · rcases List.mem_cons.mp hm with e | hm
        · exact absurd e (by decide)
        · exact hc hm
  rw [processLine_cons_first pd _ rest hcm2, processLine_cons_first pd L rest hc,
    trim_append_of_all w _ hw, htm, hcm, htL, hcL, if_pos hne, if_pos (by rfl)]

/-- C7: for a recognised label `L`, leading white space `w`, a value `v` and any
lines before and after, the line `w ++ "- L: v"` yields the same draft as the
line `"L: v"` in the same position. -/
theorem parse_marker_stripped (L : Str) (hL : L ∈ recognised) (w v : Str)
    (pre post : List Str) (hw : ∀ c ∈ w, isWhiteSpace c = true)
    (hwn : '\n' ∉ w) (hv : '\n' ∉ v) :
    parse (joinLines (pre ++ (w ++ "- ".toList ++ L ++ ": ".toList ++ v) :: post)) =
      parse (joinLines (pre ++ (L ++ ": ".toList ++ v) :: post)) := by
  obtain ⟨_, hnL, _⟩ := recognised_facts L hL
  have e1 : w ++ "- ".toList ++ L ++ ": ".toList ++ v =
      (w ++ '-' :: ' ' :: L) ++ ':' :: (' ' :: v) := by
    show w ++ [ '-', ' '] ++ L ++ [ ':', ' '] ++ v = _
    simp
  have e2 : L ++ ": ".toList ++ v = L ++ ':' :: (' ' :: v) := by
    show L ++ [ ':', ' '] ++ v = _
    simp
  have n2 : '\n' ∉ L ++ ':' :: (' ' :: v) := by
    intro hm
    rcases List.mem_append.mp hm with hm | hm
    · exact hnL hm
    · rcases List.mem_cons.mp hm with e | hm
      · exact absurd e (by decide)
      · rcases List.mem_cons.mp hm with e | hm
        · exact absurd e (by decide)
        · exact hv hm
  have n1 : '\n' ∉ (w ++ '-' :: ' ' :: L) ++ ':' :: (' ' :: v) := by
    intro hm
    rcases List.mem_append.mp hm with hm | hm
    · rcases List.mem_append.mp hm with hm | hm
      · exact hwn hm
      · rcases List.mem_cons.mp hm with e | hm
        · exact absurd e (by decide)
        · rcases List.mem_cons.mp hm with e | hm
          · exact absurd e (by decide)
          · exact hnL hm
    · exact n2 (List.mem_append_right _ hm)
  unfold parse
  rw [e1, e2, parsedData_joinLines_around pre post _ n1,
    parsedData_joinLines_around pre post _ n2, processLine_marked _ L hL w _ hw]

/-- C7, at the prompt's indented `"  - Dosage: 500 mg"` between two other lines. -/
theorem parse_marker_stripped_witness :
    parse "Medication Name: A\n  - Dosage: 500 mg\nInstructions: none".toList =
      parse "Medication Name: A\nDosage: 500 mg\nInstructions: none".toList :=
  parse_marker_stripped "Dosage".toList (by decide) "  ".toList "500 mg".toList
    ["Medication Name: A".toList] ["Instructions: none".toList]
    (by decide) (by decide) (by decide)

theorem jsOr_str_nil (x : Str) : jsOr (.str x) (.str []) = .str x := by
  by_cases h : x = []
  · simp [jsOr, Value.truthy, h]
  · simp [jsOr, Value.truthy, h]

theorem jsOr_undefined (b : Value) : jsOr .undefined b = b := rfl

theorem parsedData_single (L v : Str) (hL : L ∈ recognised) (hn : '\n' ∉ v) (hc : ':' ∉ v) :
    parsedData (L ++ ": ".toList ++ v) = [(L, trim v)] := by
  obtain ⟨hcL, hnL, htL, hkL, _, _, hp, hne⟩ := recognised_facts L hL
  have e : L ++ ": ".toList ++ v = L ++ ':' :: (' ' :: v) := by
    show L ++ [ ':', ' '] ++ v = _
    simp
  have hnl : '\n' ∉ L ++ ':' :: (' ' :: v) := by
    intro hm
    rcases List.mem_append.mp hm with hm | hm
    · exact hnL hm
    · rcases List.mem_cons.mp hm with e | hm
      · exact absurd e (by decide)
      · rcases List.mem_cons.mp hm with e | hm
        · exact absurd e (by decide)
        · exact hn hm
  have hcv : ':' ∉ ' ' :: v := by
    intro hm
    rcases List.mem_cons.mp hm with e | hm
    · exact absurd e (by decide)
    · exact hc hm
  have htv : trim (' ' :: v) = trim v :=
    trim_append_of_all [ ' '] v (by decide)
  unfold parsedData
  rw [e, split_of_not_mem _ _ hnl]
  show processLine [] _ = _
  rw [processLine_cons_first [] L _ hcL, htL, hkL, if_pos hne, split_of_not_mem _ _ hcv]
  unfold setProp
  rw [if_neg hp]
  show [(L, trim (' ' :: v))] = _
  rw [htv]

theorem labelOf_not_recognised_of_case (line L : Str) (hL : L ∈ recognised)
    (hne : labelOf line ≠ L) (hlow : lower (labelOf line) = lower L) :
    labelOf line ∉ recognised := by
  intro hmem
  have inj : ∀ A ∈ recognised, ∀ B ∈ recognised, lower A = lower B → A = B := by decide
  exact hne (inj _ hmem L hL hlow)

/-- C8: each recognised label fills its own field (`Medication Name` the name,
`Dosage` the dosage amount, `Dosage Form` the dosage form, `Instructions` the
instructions) and no other; a line whose label differs from a recognised label
only in letter case leaves the draft unchanged wherever it is inserted. -/
theorem parse_label_exact (v : Str) (hn : '\n' ∉ v) (hc : ':' ∉ v) :
    parse ("Medication Name: ".toList ++ v) = { emptyDraft with name := .str (trim v) } ∧
    parse ("Dosage: ".toList ++ v) = { emptyDraft with dosageAmount := .str (trim v) } ∧
    parse ("Dosage Form: ".toList ++ v) = { emptyDraft with dosageForm := .str (trim v) } ∧
    parse ("Instructions: ".toList ++ v) = { emptyDraft with instructions := .str (trim v) } ∧
    (∀ (text : Str) (k : Nat) (line : Str), '\n' ∉ line →
      ∀ L ∈ recognised, labelOf line ≠ L → lower (labelOf line) = lower L →
        parse (insertLine text k line) = parse text) := by
  have h1 := parsedData_single "Medication Name".toList v (by decide) hn hc
  have h2 := parsedData_single "Dosage".toList v (by decide) hn hc
  have h3 := parsedData_single "Dosage Form".toList v (by decide) hn hc
  have h4 := parsedData_single "Instructions".toList v (by decide) hn hc
  refine ⟨?_, ?_, ?_, ?_, ?_⟩
  · show draftOf (parsedData ("Medication Name".toList ++ ": ".toList ++ v)) = _
    rw [h1]
    simp [draftOf, getProp, emptyDraft, jsOr_str_nil, jsOr_undefined]
  · show draftOf (parsedData ("Dosage".toList ++ ": ".toList ++ v)) = _
    rw [h2]
    simp [draftOf, getProp, emptyDraft, jsOr_str_nil, jsOr_undefined]
  · show draftOf (parsedData ("Dosage Form".toList ++ ": ".toList ++ v)) = _
    rw [h3]
    simp [draftOf, getProp, emptyDraft, jsOr_str_nil, jsOr_undefined]
  · show draftOf (parsedData ("Instructions".toList ++ ": ".toList ++ v)) = _
    rw [h4]
    simp [draftOf, getProp, emptyDraft, jsOr_str_nil, jsOr_undefined]
  · intro text k line hl L hL hne hlow
    have hnot := labelOf_not_recognised_of_case line L hL hne hlow
    unfold parse
    apply draftOf_congr
    intro K hK
    exact getProp_parsedData_insertLine text k line K hl
      (lineLabel_ne_of_labelOf_ne line K (fun e => hnot (e ▸ hK)))

/-- C8, at `"Medication Name: Lisinopril"`, and at the lines `"DOSAGE: 5 mg"` and
`"medication name: X"`, which populate no field. -/
theorem parse_label_exact_witness :
    parse "Medication Name: Lisinopril".toList =
      { emptyDraft with name := .str "Lisinopril".toList } ∧
    parse (insertLine "Dosage: 10mg".toList 1 "DOSAGE: 5 mg".toList) =
      parse "Dosage: 10mg".toList ∧
    parse "medication name: X".toList = emptyDraft ∧
    parse "DOSAGE: 5 mg".toList = emptyDraft :=
  ⟨(parse_label_exact "Lisinopril".toList (by decide) (by decide)).1,
    (parse_label_exact [] (by decide) (by decide)).2.2.2.2 "Dosage: 10mg".toList 1
      "DOSAGE: 5 mg".toList (by decide) "Dosage".toList (by decide) (by decide) (by decide),
    by decide, by decide⟩

theorem split_of_mem (sep : Char) (s : Str) (h : sep ∈ s) :
    ∃ p q rest, split sep s = p :: q :: rest := by
  induction s with
  | nil => simp at h
  | cons c cs ih =>
    have hne := split_ne_nil sep cs
    by_cases hc : c = sep
    · cases hs : split sep cs with
      | nil => exact absurd hs hne
      | cons q rest => exact ⟨[], q, rest, by simp [split, hc, hs]⟩
    · have hcs : sep ∈ cs := by
        rcases List.mem_cons.mp h with e | e
        · exact absurd e.symm hc
        · exact e
      obtain ⟨p, q, rest, hs⟩ := ih hcs
      exact ⟨c :: p, q, rest, by simp [split, hc, hs]⟩

theorem recorded_eq_false_iff (line : Str) :
    recorded line = false ↔ (':' ∉ line ∨ trim ((split ':' line).headD []) = []) := by
  by_cases hc : ':' ∈ line
  · obtain ⟨p, q, rest, hs⟩ := split_of_mem ':' line hc
    simp [recorded, keyValue, hs, hc]
  · simp [recorded, keyValue_of_no_colon line hc, hc]

theorem processLine_of_not_recorded (pd : Obj) (line : Str) (h : recorded line = false) :
    processLine pd line = pd := by
  unfold recorded at h
  unfold processLine
  rcases hkv : keyValue line with ⟨_ | key, _ | value⟩ <;> rw [hkv] at h
  all_goals simp at h ⊢
  simp [h]

/-- C9 as worded fails in its last clause: the line `": 5 mg"` contains a colon
and is skipped all the same, because its key is empty. -/
theorem skipped_with_colon_counterexample :
    ':' ∈ ": 5 mg".toList ∧ recorded ": 5 mg".toList = false ∧
    (∀ pd : Obj, processLine pd ": 5 mg".toList = pd) :=
  ⟨by decide, by decide, fun pd => processLine_of_not_recorded pd _ (by decide)⟩

/-- C9, amended: the line `"Dosage Form: "` passes the guard and is recorded with
the empty string as its value; alone it yields the draft with four empty
strings; inserted anywhere into a text no line of which assigns `Dosage Form`, it
leaves the draft as it is without the line; and a line is skipped exactly when it
has no colon or its key (the text before the first colon) is empty after
trimming. -/
theorem parse_empty_value_recorded :
    recorded "Dosage Form: ".toList = true ∧
    (∀ pd : Obj, processLine pd "Dosage Form: ".toList = ("Dosage Form".toList, []) :: pd) ∧
    (parse "Dosage Form: ".toList).dosageForm = .str [] ∧
    parse "Dosage Form: ".toList = parse [] ∧
    (∀ (text : Str) (k : Nat),
      (∀ l ∈ split '\n' text, lineLabel l ≠ some "Dosage Form".toList) →
        parse (insertLine text k "Dosage Form: ".toList) = parse text) ∧
    (∀ line : Str, recorded line = false ↔
      (':' ∉ line ∨ trim ((split ':' line).headD []) = [])) ∧
    (∀ (pd : Obj) (line : Str), recorded line = false → processLine pd line = pd) := by
  have hp : ∀ pd : Obj,
      processLine pd "Dosage Form: ".toList = ("Dosage Form".toList, []) :: pd := by
    intro pd
    have e := processLine_cons_first pd "Dosage Form".toList [ ' '] (by decide)
    exact e
  refine ⟨by decide, hp, by decide, by decide, ?_, recorded_eq_false_iff,
    processLine_of_not_recorded⟩
  intro text k habs
  have hn : '\n' ∉ "Dosage Form: ".toList := by decide
  unfold parse
  apply draftOf_congr_jsOr
  intro K hK
  by_cases hKd : K = "Dosage Form".toList
  · subst hKd
    rw [getProp_parsedData_of_absent text _ habs, parsedData_insertLine text k _ hn,
      getProp_foldl_of_ne _ _ _ (fun l hl => habs l (List.mem_of_mem_drop hl)), hp]
    rfl
  · rw [getProp_parsedData_insertLine text k _ K hn (by
      have : lineLabel "Dosage Form: ".toList = some "Dosage Form".toList := by decide
      rw [this]
      intro e
      exact hKd (Option.some.inj e).symm)]

/-- C9, amended, at the text `"Dosage: 10mg"` with `"Dosage Form: "` appended. -/
theorem parse_empty_value_recorded_witness :
    parse (insertLine "Dosage: 10mg".toList 1 "Dosage Form: ".toList) =
      parse "Dosage: 10mg".toList :=
  parse_empty_value_recorded.2.2.2.2.1 "Dosage: 10mg".toList 1 (by decide)

/-! ## Text extraction -/

theorem analyzeImageSteps_of_vision_none (sv : Services) (img : Str)
    (hv : sv.vision img = none) :
    analyzeImageSteps sv img =
      [setIsLoading true, perform (.visionRequest img), catchBlock, finallyBlock] := by
  unfold analyzeImageSteps
  simp only [hv]
  rfl

theorem analyzeImageSteps_of_no_responses (sv : Services) (img : Str)
    (hv : sv.vision img = some ⟨none⟩) :
    analyzeImageSteps sv img =
      [setIsLoading true, perform (.visionRequest img), catchBlock, finallyBlock] := by
  unfold analyzeImageSteps
  simp only [hv, fullTextOf, Option.map]
  rfl

theorem analyzeImageSteps_of_completion_none (sv : Services) (img : Str)
    (rs : List (Option AnnotateResponse)) (hv : sv.vision img = some ⟨some rs⟩)
    (hc : sv.completion (userContent (fullText rs)) = none) :
    analyzeImageSteps sv img =
      [setIsLoading true, perform (.visionRequest img),
        perform (.completionRequest (userContent (fullText rs))),
        catchBlock, finallyBlock] := by
  unfold analyzeImageSteps
  simp only [hv, fullTextOf, Option.map, hc]
  rfl

theorem analyzeImageSteps_of_bad_completion (sv : Services) (img : Str)
    (rs : List (Option AnnotateResponse)) (aiData : CompletionData)
    (hv : sv.vision img = some ⟨some rs⟩)
    (hc : sv.completion (userContent (fullText rs)) = some aiData)
    (hr : responseTextOf aiData = none) :
    analyzeImageSteps sv img =
      [setIsLoading true, perform (.visionRequest img),
        perform (.completionRequest (userContent (fullText rs))),
        catchBlock, finallyBlock] := by
  unfold analyzeImageSteps
  simp only [hv, fullTextOf, Option.map, hc, hr]
  rfl

theorem analyzeImageSteps_of_success (sv : Services) (img : Str)
    (rs : List (Option AnnotateResponse)) (aiData : CompletionData) (responseText : Str)
    (hv : sv.vision img = some ⟨some rs⟩)
    (hc : sv.completion (userContent (fullText rs)) = some aiData)
    (hr : responseTextOf aiData = some responseText) :
    analyzeImageSteps sv img =
      [setIsLoading true, perform (.visionRequest img),
        perform (.completionRequest (userContent (fullText rs))),
        setFields (parse responseText), finallyBlock] := by
  unfold analyzeImageSteps
  simp only [hv, fullTextOf, Option.map, hc, hr]
  rfl

theorem analyzeImage_of_fullText (sv : Services) (img : Str) (s : Screen)
    (rs : List (Option AnnotateResponse)) (hv : sv.vision img = some ⟨some rs⟩) :
    analyzeImage sv img s =
      match sv.completion (userContent (fullText rs)) with
      | none =>
        ⟨{ s with isLoading := false },
          [.visionRequest img, .completionRequest (userContent (fullText rs)),
            .alert "Scan Error".toList "Failed to process image text.".toList]⟩
      | some aiData =>
        match responseTextOf aiData with
        | none =>
          ⟨{ s with isLoading := false },
            [.visionRequest img, .completionRequest (userContent (fullText rs)),
              .alert "Scan Error".toList "Failed to process image text.".toList]⟩
        | some responseText =>
          ⟨{ setExtractedFields s (parse responseText) with isLoading := false },
            [.visionRequest img, .completionRequest (userContent (fullText rs))]⟩ := by
  unfold analyzeImage
  cases hc : sv.completion (userContent (fullText rs)) with
  | none =>
    rw [analyzeImageSteps_of_completion_none sv img rs hv hc]
    rfl
  | some aiData =>
    cases hr : responseTextOf aiData with
    | none =>
      rw [analyzeImageSteps_of_bad_completion sv img rs aiData hv hc hr]
      simp only [hr]
      rfl
    | some responseText =>
      rw [analyzeImageSteps_of_success sv img rs aiData responseText hv hc hr]
      simp only [hr]
      rfl

/-- C10: when `responses` exists, `fullText` is `"No text found."` if
`responses[0]`, its `fullTextAnnotation` or its `text` is missing or the text is
empty, and the annotation text otherwise; in the sentinel case the run goes on:
the text-generation request is sent with `"Text:\nNo text found."`, and when the
service answers, the fields are set from the parsed answer and no alert is raised. -/
theorem fullText_sentinel_or_text (responses : List (Option AnnotateResponse)) :
    (responses = [] → fullText responses = .str noTextFound) ∧
    (∀ rest, responses = none :: rest → fullText responses = .str noTextFound) ∧
    (∀ r rest, responses = some r :: rest → r.fullTextAnnotation = none →
      fullText responses = .str noTextFound) ∧
    (∀ r a rest, responses = some r :: rest → r.fullTextAnnotation = some a →
      a.text = none → fullText responses = .str noTextFound) ∧
    (∀ r a rest, responses = some r :: rest → r.fullTextAnnotation = some a →
      a.text = some [] → fullText responses = .str noTextFound) ∧
    (∀ r a t rest, responses = some r :: rest → r.fullTextAnnotation = some a →
      a.text = some t → t ≠ [] → fullText responses = .str t) ∧
    (∀ (sv : Services) (img : Str) (s : Screen),
      sv.vision img = some ⟨some responses⟩ → fullText responses = .str noTextFound →
        Effect.completionRequest "Text:\nNo text found.".toList ∈
          (analyzeImage sv img s).effects ∧
        ∀ aiData responseText,
          sv.completion "Text:\nNo text found.".toList = some aiData →
          responseTextOf aiData = some responseText →
            analyzeImage sv img s =
              ⟨{ setExtractedFields s (parse responseText) with isLoading := false },
                [.visionRequest img,
                  .completionRequest "Text:\nNo text found.".toList]⟩) := by
  refine ⟨?_, ?_, ?_, ?_, ?_, ?_, ?_⟩
  · intro h
    subst h
    rfl
  · intro rest h
    subst h
    simp [fullText, annotationText, jsOr_undefined]
  · intro r rest h ha
    subst h
    simp [fullText, annotationText, ha, jsOr_undefined]
  · intro r a rest h ha ht
    subst h
    simp [fullText, annotationText, ha, ht, Value.ofOption, jsOr_undefined]
  · intro r a rest h ha ht
    subst h
    simp [fullText, annotationText, ha, ht, Value.ofOption, jsOr, Value.truthy]
  · intro r a t rest h ha ht hne
    subst h
    simp [fullText, annotationText, ha, ht, Value.ofOption, jsOr, Value.truthy, hne]
  · intro sv img s hv hf
    have hu : userContent (fullText responses) = "Text:\nNo text found.".toList := by
      rw [hf]
      decide
    have hrun := analyzeImage_of_fullText sv img s responses hv
    rw [hu] at hrun
    constructor
    · rw [hrun]
      cases hc : sv.completion "Text:\nNo text found.".toList with
      | none => exact List.mem_cons_of_mem _ (List.mem_cons_self _ _)
      | some aiData =>
        cases hr : responseTextOf aiData with
        | none =>
          simp only [hr]
          exact List.mem_cons_of_mem _ (List.mem_cons_self _ _)
        | some responseText =>
          simp only [hr]
          exact List.mem_cons_of_mem _ (List.mem_cons_self _ _)
    · intro aiData responseText hc hr
      rw [hrun, hc]
      simp only [hr]

/-- C10, at an OCR reply with an empty `responses` list and a text-generation
service that answers `"Dosage: 5 mg"`: the sentinel is sent on, the dosage is set
and no alert is raised; and at a reply with the annotation text `"Rx 5 mg"`. -/
theorem fullText_sentinel_or_text_witness :
    fullText [] = .str "No text found.".toList ∧
    fullText [some ⟨some ⟨some "Rx 5 mg".toList⟩⟩] = .str "Rx 5 mg".toList ∧
    analyzeImage
        ⟨fun _ => some ⟨some []⟩,
          fun _ => some ⟨some [some ⟨some ⟨some "Dosage: 5 mg".toList⟩⟩]⟩⟩
        "aGVsbG8=".toList (initialScreen 0) =
      ⟨{ setExtractedFields (initialScreen 0) (parse "Dosage: 5 mg".toList) with
          isLoading := false },
        [.visionRequest "aGVsbG8=".toList,
          .completionRequest "Text:\nNo text found.".toList]⟩ :=
  ⟨(fullText_sentinel_or_text []).1 rfl,
    (fullText_sentinel_or_text [some ⟨some ⟨some "Rx 5 mg".toList⟩⟩]).2.2.2.2.2.1
      _ _ _ _ rfl rfl rfl (by decide),
    ((fullText_sentinel_or_text []).2.2.2.2.2.2
      ⟨fun _ => some ⟨some []⟩,
        fun _ => some ⟨some [some ⟨some ⟨some "Dosage: 5 mg".toList⟩⟩]⟩⟩
      "aGVsbG8=".toList (initialScreen 0) rfl (by decide)).2 _ _ rfl rfl⟩

/-! ## The run of `analyzeImage` -/

theorem analyzeImage_of_vision_none (sv : Services) (img : Str) (s : Screen)
    (hv : sv.vision img = none) :
    analyzeImage sv img s =
      ⟨{ s with isLoading := false }, [.visionRequest img, scanErrorAlert]⟩ := by
  unfold analyzeImage
  rw [analyzeImageSteps_of_vision_none sv img hv]
  rfl

theorem analyzeImage_of_no_responses (sv : Services) (img : Str) (s : Screen)
    (hv : sv.vision img = some ⟨none⟩) :
    analyzeImage sv img s =
      ⟨{ s with isLoading := false }, [.visionRequest img, scanErrorAlert]⟩ := by
  unfold analyzeImage
  rw [analyzeImageSteps_of_no_responses sv img hv]
  rfl

theorem analyzeImage_of_completion_none (sv : Services) (img : Str) (s : Screen)
    (rs : List (Option AnnotateResponse)) (hv : sv.vision img = some ⟨some rs⟩)
    (hc : sv.completion (userContent (fullText rs)) = none) :
    analyzeImage sv img s =
      ⟨{ s with isLoading := false },
        [.visionRequest img, .completionRequest (userContent (fullText rs)),
          scanErrorAlert]⟩ := by
  rw [analyzeImage_of_fullText sv img s rs hv, hc]
  rfl

theorem analyzeImage_of_bad_completion (sv : Services) (img : Str) (s : Screen)
    (rs : List (Option AnnotateResponse)) (aiData : CompletionData)
    (hv : sv.vision img = some ⟨some rs⟩)
    (hc : sv.completion (userContent (fullText rs)) = some aiData)
    (hr : responseTextOf aiData = none) :
    analyzeImage sv img s =
      ⟨{ s with isLoading := false },
        [.visionRequest img, .completionRequest (userContent (fullText rs)),
          scanErrorAlert]⟩ := by
  rw [analyzeImage_of_fullText sv img s rs hv, hc]
  simp only [hr]
  rfl

theorem analyzeImage_of_success (sv : Services) (img : Str) (s : Screen)
    (rs : List (Option AnnotateResponse)) (aiData : CompletionData) (responseText : Str)
    (hv : sv.vision img = some ⟨some rs⟩)
    (hc : sv.completion (userContent (fullText rs)) = some aiData)
    (hr : responseTextOf aiData = some responseText) :
    analyzeImage sv img s =
      ⟨{ setExtractedFields s (parse responseText) with isLoading := false },
        [.visionRequest img, .completionRequest (userContent (fullText rs))]⟩ := by
  rw [analyzeImage_of_fullText sv img s rs hv, hc]
  simp only [hr]

/-- The three shapes of a run: the OCR stage fails, the text-generation stage
fails, or both succeed. -/
theorem analyzeImage_cases (sv : Services) (img : Str) (s : Screen) :
    ((sv.vision img = none ∨ sv.vision img = some ⟨none⟩) ∧
      analyzeImage sv img s =
        ⟨{ s with isLoading := false }, [.visionRequest img, scanErrorAlert]⟩) ∨
    (∃ rs, sv.vision img = some ⟨some rs⟩ ∧
      (sv.completion (userContent (fullText rs)) = none ∨
        ∃ aiData, sv.completion (userContent (fullText rs)) = some aiData ∧
          responseTextOf aiData = none) ∧
      analyzeImage sv img s =
        ⟨{ s with isLoading := false },
          [.visionRequest img, .completionRequest (userContent (fullText rs)),
            scanErrorAlert]⟩) ∨
    (∃ rs aiData responseText, sv.vision img = some ⟨some rs⟩ ∧
      sv.completion (userContent (fullText rs)) = some aiData ∧
      responseTextOf aiData = some responseText ∧
      analyzeImage sv img s =
        ⟨{ setExtractedFields s (parse responseText) with isLoading := false },
          [.visionRequest img, .completionRequest (userContent (fullText rs))]⟩) := by
  cases hv : sv.vision img with
  | none => exact Or.inl ⟨Or.inl rfl, analyzeImage_of_vision_none sv img s hv⟩
  | some data =>
    obtain ⟨responses⟩ := data
    cases responses with
    | none => exact Or.inl ⟨Or.inr rfl, analyzeImage_of_no_responses sv img s hv⟩
    | some rs =>
      cases hc : sv.completion (userContent (fullText rs)) with
      | none =>
        exact Or.inr (Or.inl ⟨rs, rfl, Or.inl hc,
          analyzeImage_of_completion_none sv img s rs hv hc⟩)
      | some aiData =>
        cases hr : responseTextOf aiData with
        | none =>
          exact Or.inr (Or.inl ⟨rs, rfl, Or.inr ⟨aiData, hc, hr⟩,
            analyzeImage_of_bad_completion sv img s rs aiData hv hc hr⟩)
        | some responseText =>
          exact Or.inr (Or.inr ⟨rs, aiData, responseText, rfl, hc, hr,
            analyzeImage_of_success sv img s rs aiData responseText hv hc hr⟩)

/-- C11: when the OCR call fails or its body has no `responses`, or the
text-generation call fails or its body has no `choices[0].message.content`, the
run leaves the four form fields (and all other state but the busy flag) as they
were and raises the alert `"Scan Error"`, `"Failed to process image text."`. -/
theorem analyzeImage_failure_atomic (sv : Services) (img : Str) (s : Screen)
    (h : sv.vision img = none ∨ sv.vision img = some ⟨none⟩ ∨
      ∃ rs, sv.vision img = some ⟨some rs⟩ ∧
        (sv.completion (userContent (fullText rs)) = none ∨
          ∃ aiData, sv.completion (userContent (fullText rs)) = some aiData ∧
            responseTextOf aiData = none)) :
    (analyzeImage sv img s).screen.medicationName = s.medicationName ∧
    (analyzeImage sv img s).screen.dosageAmount = s.dosageAmount ∧
    (analyzeImage sv img s).screen.dosageForm = s.dosageForm ∧
    (analyzeImage sv img s).screen.instructions = s.instructions ∧
    (analyzeImage sv img s).screen = { s with isLoading := false } ∧
    Effect.alert "Scan Error".toList "Failed to process image text.".toList ∈
      (analyzeImage sv img s).effects := by
  have key : (analyzeImage sv img s).screen = { s with isLoading := false } ∧
      scanErrorAlert ∈ (analyzeImage sv img s).effects := by
    rcases h with hv | hv | ⟨rs, hv, hc | ⟨aiData, hc, hr⟩⟩
    · rw [analyzeImage_of_vision_none sv img s hv]
      exact ⟨rfl, by simp⟩
    · rw [analyzeImage_of_no_responses sv img s hv]
      exact ⟨rfl, by simp⟩
    · rw [analyzeImage_of_completion_none sv img s rs hv hc]
      exact ⟨rfl, by simp⟩
    · rw [analyzeImage_of_bad_completion sv img s rs aiData hv hc hr]
      exact ⟨rfl, by simp⟩
  obtain ⟨hs, ha⟩ := key
  refine ⟨?_, ?_, ?_, ?_, hs, ha⟩ <;> rw [hs]

/-- C11, at a form the user has filled in and an OCR service that is unreachable,
and at a text-generation reply without `choices`. -/
theorem analyzeImage_failure_atomic_witness :
    (analyzeImage ⟨fun _ => none, fun _ => none⟩ "aGVsbG8=".toList
        { initialScreen 0 with medicationName := .str "Aspirin".toList }).screen.medicationName =
      .str "Aspirin".toList ∧
    scanErrorAlert ∈
      (analyzeImage ⟨fun _ => some ⟨some []⟩, fun _ => some ⟨none⟩⟩ "aGVsbG8=".toList
        (initialScreen 0)).effects :=
  ⟨(analyzeImage_failure_atomic ⟨fun _ => none, fun _ => none⟩ "aGVsbG8=".toList
      { initialScreen 0 with medicationName := .str "Aspirin".toList } (Or.inl rfl)).1,
    (analyzeImage_failure_atomic ⟨fun _ => some ⟨some []⟩, fun _ => some ⟨none⟩⟩
      "aGVsbG8=".toList (initialScreen 0)
      (Or.inr (Or.inr ⟨[], rfl, Or.inr ⟨⟨none⟩, rfl, rfl⟩⟩))).2.2.2.2.2⟩

/-- C12: when the permission status is not `"granted"`, `pickImage` asks for the
permission, shows the `"Permission Denied"` alert and does nothing else: the
camera is not launched, no request goes to either service, and the screen state
(`imageUri`, `isLoading`, the four fields and the rest) is unchanged. -/
theorem pickImage_permission_denied (dev : Device) (sv : Services) (s : Screen)
    (h : dev.permissionStatus ≠ "granted".toList) :
    pickImage dev sv s =
      ⟨s, [.permissionRequest,
        .alert "Permission Denied".toList "Camera access is required.".toList]⟩ ∧
    Effect.cameraLaunch ∉ (pickImage dev sv s).effects ∧
    (∀ e ∈ (pickImage dev sv s).effects, e.isRequest = false) ∧
    (pickImage dev sv s).screen.imageUri = s.imageUri ∧
    (pickImage dev sv s).screen.isLoading = s.isLoading ∧
    (pickImage dev sv s).screen.medicationName = s.medicationName ∧
    (pickImage dev sv s).screen.dosageAmount = s.dosageAmount ∧
    (pickImage dev sv s).screen.dosageForm = s.dosageForm ∧
    (pickImage dev sv s).screen.instructions = s.instructions := by
  have e : pickImage dev sv s =
      ⟨s, [.permissionRequest,
        .alert "Permission Denied".toList "Camera access is required.".toList]⟩ := by
    unfold pickImage
    rw [if_pos h]
  rw [e]
  refine ⟨rfl, ?_, ?_, rfl, rfl, rfl, rfl, rfl, rfl⟩
  · simp
  · intro e he
    simp only [List.mem_cons, List.mem_singleton, List.not_mem_nil, or_false] at he
    rcases he with he | he <;> subst he <;> rfl

/-- C12, at the status `"denied"`, with services that would answer. -/
theorem pickImage_permission_denied_witness :
    pickImage ⟨"denied".toList, ⟨false, [⟨"file:///a.jpg".toList, "aGVsbG8=".toList⟩]⟩⟩
        ⟨fun _ => some ⟨some []⟩, fun _ => some ⟨none⟩⟩ (initialScreen 0) =
      ⟨initialScreen 0, [.permissionRequest,
        .alert "Permission Denied".toList "Camera access is required.".toList]⟩ :=
  (pickImage_permission_denied
    ⟨"denied".toList, ⟨false, [⟨"file:///a.jpg".toList, "aGVsbG8=".toList⟩]⟩⟩
    ⟨fun _ => some ⟨some []⟩, fun _ => some ⟨none⟩⟩ (initialScreen 0) (by decide)).1

/-- The network requests among the effects of a run, in order. -/
theorem requests_analyzeImage (sv : Services) (img : Str) (s : Screen) :
    (analyzeImage sv img s).effects.filter Effect.isRequest = [.visionRequest img] ∨
    ∃ rs, sv.vision img = some ⟨some rs⟩ ∧
      (analyzeImage sv img s).effects.filter Effect.isRequest =
        [.visionRequest img, .completionRequest (userContent (fullText rs))] := by
  rcases analyzeImage_cases sv img s with ⟨_, e⟩ | ⟨rs, hv, _, e⟩ | ⟨rs, _, _, hv, _, _, e⟩
  · left
    rw [e]
    rfl
  · right
    exact ⟨rs, hv, by rw [e]; rfl⟩
  · right
    exact ⟨rs, hv, by rw [e]; rfl⟩

/-- C13: when the OCR request fails (or its body has no `responses`), the run
consists of the OCR request and the alert: no text-generation request, no field
set; a text-generation request occurs only when the OCR stage has succeeded, and
its content is built from the extracted text; the requests of a run are the OCR
request alone, or the OCR request followed by one text-generation request. -/
theorem analyzeImage_sequential (sv : Services) (img : Str) (s : Screen) :
    ((sv.vision img = none ∨ sv.vision img = some ⟨none⟩) →
      analyzeImage sv img s =
        ⟨{ s with isLoading := false },
          [.visionRequest img,
            .alert "Scan Error".toList "Failed to process image text.".toList]⟩ ∧
      ∀ content, Effect.completionRequest content ∉ (analyzeImage sv img s).effects) ∧
    (∀ content, Effect.completionRequest content ∈ (analyzeImage sv img s).effects →
      ∃ rs, sv.vision img = some ⟨some rs⟩ ∧ content = userContent (fullText rs)) ∧
    ((analyzeImage sv img s).effects.filter Effect.isRequest = [.visionRequest img] ∨
      ∃ content, (analyzeImage sv img s).effects.filter Effect.isRequest =
        [.visionRequest img, .completionRequest content]) := by
  refine ⟨?_, ?_, ?_⟩
  · intro h
    have e : analyzeImage sv img s =
        ⟨{ s with isLoading := false }, [.visionRequest img, scanErrorAlert]⟩ := by
      rcases h with hv | hv
      · exact analyzeImage_of_vision_none sv img s hv
      · exact analyzeImage_of_no_responses sv img s hv
    refine ⟨e, ?_⟩
    intro content hm
    rw [e] at hm
    simp [scanErrorAlert] at hm
  · intro content hm
    rcases analyzeImage_cases sv img s with ⟨_, e⟩ | ⟨rs, hv, _, e⟩ | ⟨rs, _, _, hv, _, _, e⟩
    · rw [e] at hm
      simp [scanErrorAlert] at hm
    · rw [e] at hm
      simp [scanErrorAlert] at hm
      exact ⟨rs, hv, hm⟩
    · rw [e] at hm
      simp at hm
      exact ⟨rs, hv, hm⟩
  · rcases requests_analyzeImage sv img s with h | ⟨rs, _, h⟩
    · exact Or.inl h
    · exact Or.inr ⟨_, h⟩

/-- C13, at an OCR service that is unreachable (Scenario 4) and a text-generation
service that would answer. -/
theorem analyzeImage_sequential_witness :
    analyzeImage ⟨fun _ => none, fun _ => some ⟨some [some ⟨some ⟨some "Dosage: 5 mg".toList⟩⟩]⟩⟩
        "aGVsbG8=".toList (initialScreen 0) =
      ⟨initialScreen 0,
        [.visionRequest "aGVsbG8=".toList,
          .alert "Scan Error".toList "Failed to process image text.".toList]⟩ :=
  ((analyzeImage_sequential
    ⟨fun _ => none, fun _ => some ⟨some [some ⟨some ⟨some "Dosage: 5 mg".toList⟩⟩]⟩⟩
    "aGVsbG8=".toList (initialScreen 0)).1 (Or.inl rfl)).1

/-- C15: when the permission is granted and the camera result is cancelled,
`pickImage` asks for the permission, launches the camera and does nothing else:
no alert, no request to either service, and the screen state is unchanged. -/
theorem pickImage_canceled (dev : Device) (sv : Services) (s : Screen)
    (hp : dev.permissionStatus = "granted".toList) (hc : dev.camera.canceled = true) :
    pickImage dev sv s = ⟨s, [.permissionRequest, .cameraLaunch]⟩ ∧
    (∀ title message, Effect.alert title message ∉ (pickImage dev sv s).effects) ∧
    (∀ e ∈ (pickImage dev sv s).effects, e.isRequest = false) ∧
    (pickImage dev sv s).screen.imageUri = s.imageUri ∧
    (pickImage dev sv s).screen.isLoading = s.isLoading ∧
    (pickImage dev sv s).screen.medicationName = s.medicationName ∧
    (pickImage dev sv s).screen.dosageAmount = s.dosageAmount ∧
    (pickImage dev sv s).screen.dosageForm = s.dosageForm ∧
    (pickImage dev sv s).screen.instructions = s.instructions := by
  have e : pickImage dev sv s = ⟨s, [.permissionRequest, .cameraLaunch]⟩ := by
    unfold pickImage
    rw [if_neg (by simp [hp]), hc]
    rfl
  rw [e]
  refine ⟨rfl, ?_, ?_, rfl, rfl, rfl, rfl, rfl, rfl⟩
  · intro title message
    simp
  · intro e he
    simp only [List.mem_cons, List.mem_singleton, List.not_mem_nil, or_false] at he
    rcases he with he | he <;> subst he <;> rfl

/-- C15, at a granted permission and a cancelled camera result. -/
theorem pickImage_canceled_witness :
    pickImage ⟨"granted".toList, ⟨true, []⟩⟩
        ⟨fun _ => some ⟨some []⟩, fun _ => some ⟨none⟩⟩ (initialScreen 0) =
      ⟨initialScreen 0, [.permissionRequest, .cameraLaunch]⟩ :=
  (pickImage_canceled ⟨"granted".toList, ⟨true, []⟩⟩
    ⟨fun _ => some ⟨some []⟩, fun _ => some ⟨none⟩⟩ (initialScreen 0) rfl rfl).1

theorem getLast?_configurationsAfter (steps : List (Run → Run)) (r : Run)
    (h : steps ≠ []) :
    (configurationsAfter steps r).getLast? = some (runSteps steps r) := by
  induction steps generalizing r with
  | nil => exact absurd rfl h
  | cons step rest ih =>
    cases rest with
    | nil => rfl
    | cons step2 rest =>
      have e := ih (step r) (by simp)
      simp only [configurationsAfter, runSteps] at e ⊢
      rw [List.getLast?_cons_cons]
      exact e

theorem analyzeImageSteps_cases (sv : Services) (img : Str) :
    analyzeImageSteps sv img =
      [setIsLoading true, perform (.visionRequest img), catchBlock, finallyBlock] ∨
    (∃ rs, analyzeImageSteps sv img =
      [setIsLoading true, perform (.visionRequest img),
        perform (.completionRequest (userContent (fullText rs))),
        catchBlock, finallyBlock]) ∨
    (∃ rs responseText, analyzeImageSteps sv img =
      [setIsLoading true, perform (.visionRequest img),
        perform (.completionRequest (userContent (fullText rs))),
        setFields (parse responseText), finallyBlock]) := by
  cases hv : sv.vision img with
  | none => exact Or.inl (analyzeImageSteps_of_vision_none sv img hv)
  | some data =>
    obtain ⟨responses⟩ := data
    cases responses with
    | none => exact Or.inl (analyzeImageSteps_of_no_responses sv img hv)
    | some rs =>
      cases hc : sv.completion (userContent (fullText rs)) with
      | none =>
        exact Or.inr (Or.inl ⟨rs, analyzeImageSteps_of_completion_none sv img rs hv hc⟩)
      | some aiData =>
        cases hr : responseTextOf aiData with
        | none =>
          exact Or.inr (Or.inl
            ⟨rs, analyzeImageSteps_of_bad_completion sv img rs aiData hv hc hr⟩)
        | some responseText =>
          exact Or.inr (Or.inr ⟨rs, responseText,
            analyzeImageSteps_of_success sv img rs aiData responseText hv hc hr⟩)

theorem analyzeImageHistory_getLast (sv : Services) (img : Str) (s : Screen) :
    (analyzeImageHistory sv img s).getLast? = some (analyzeImage sv img s) := by
  unfold analyzeImageHistory analyzeImage
  apply getLast?_configurationsAfter
  unfold analyzeImageSteps
  simp

theorem analyzeImageHistory_busy (sv : Services) (img : Str) (s : Screen) :
    ∀ c ∈ (analyzeImageHistory sv img s).dropLast, c.screen.isLoading = true := by
  unfold analyzeImageHistory
  rcases analyzeImageSteps_cases sv img with e | ⟨rs, e⟩ | ⟨rs, responseText, e⟩
  · rw [e]
    intro c hm
    simp [configurationsAfter, List.dropLast] at hm
    rcases hm with h | h | h <;> subst h <;> rfl
  · rw [e]
    intro c hm
    simp [configurationsAfter, List.dropLast] at hm
    rcases hm with h | h | h | h <;> subst h <;> rfl
  · rw [e]
    intro c hm
    simp [configurationsAfter, List.dropLast] at hm
    rcases hm with h | h | h | h <;> subst h <;> rfl

theorem analyzeImageHistory_head (sv : Services) (img : Str) (s : Screen) :
    ∃ rest, analyzeImageHistory sv img s =
      ⟨{ s with isLoading := true }, []⟩ ::
        ⟨{ s with isLoading := true }, [.visionRequest img]⟩ :: rest := by
  unfold analyzeImageHistory
  rcases analyzeImageSteps_cases sv img with e | ⟨rs, e⟩ | ⟨rs, responseText, e⟩
  · rw [e]
    exact ⟨_, rfl⟩
  · rw [e]
    exact ⟨_, rfl⟩
  · rw [e]
    exact ⟨_, rfl⟩

/-- C17: `analyzeImage` is the run of its statements, of which the first is
`setIsLoading(true)` and the second the OCR request; so the first configuration
of a run has the busy flag set and no request issued, and the second holds the
OCR request; the flag is set in every configuration of the run before the last;
the last configuration is the result of `analyzeImage`, and in it the flag is
cleared, whatever the two services do. -/
theorem analyzeImage_busy_bracket (sv : Services) (img : Str) (s : Screen) :
    analyzeImage sv img s = runSteps (analyzeImageSteps sv img) ⟨s, []⟩ ∧
    analyzeImageHistory sv img s =
      configurationsAfter (analyzeImageSteps sv img) ⟨s, []⟩ ∧
    (∃ rest, analyzeImageSteps sv img =
      setIsLoading true :: perform (.visionRequest img) :: rest) ∧
    (∃ rest, analyzeImageHistory sv img s =
      ⟨{ s with isLoading := true }, []⟩ ::
        ⟨{ s with isLoading := true }, [.visionRequest img]⟩ :: rest) ∧
    (∀ c ∈ (analyzeImageHistory sv img s).dropLast, c.screen.isLoading = true) ∧
    (analyzeImageHistory sv img s).getLast? = some (analyzeImage sv img s) ∧
    (analyzeImage sv img s).screen.isLoading = false := by
  refine ⟨rfl, rfl, ⟨_, rfl⟩, analyzeImageHistory_head sv img s,
    analyzeImageHistory_busy sv img s, analyzeImageHistory_getLast sv img s, ?_⟩
  rcases analyzeImage_cases sv img s with ⟨_, e⟩ | ⟨_, _, _, e⟩ | ⟨_, _, _, _, _, _, e⟩ <;>
    rw [e]

/-- C17, at a run in which the text-generation reply is malformed: the five
configurations of the run, the flag set in the one that holds both requests, and
the flag cleared in the result. -/
theorem analyzeImage_busy_bracket_witness :
    analyzeImageHistory ⟨fun _ => some ⟨some []⟩, fun _ => some ⟨none⟩⟩ "aGVsbG8=".toList
        (initialScreen 0) =
      [⟨{ initialScreen 0 with isLoading := true }, []⟩,
        ⟨{ initialScreen 0 with isLoading := true }, [.visionRequest "aGVsbG8=".toList]⟩,
        ⟨{ initialScreen 0 with isLoading := true },
          [.visionRequest "aGVsbG8=".toList,
            .completionRequest "Text:\nNo text found.".toList]⟩,
        ⟨{ initialScreen 0 with isLoading := true },
          [.visionRequest "aGVsbG8=".toList,
            .completionRequest "Text:\nNo text found.".toList, scanErrorAlert]⟩,
        ⟨initialScreen 0,
          [.visionRequest "aGVsbG8=".toList,
            .completionRequest "Text:\nNo text found.".toList, scanErrorAlert]⟩] ∧
    (⟨{ initialScreen 0 with isLoading := true },
        [.visionRequest "aGVsbG8=".toList,
          .completionRequest "Text:\nNo text found.".toList]⟩ : Run).screen.isLoading = true ∧
    (analyzeImage ⟨fun _ => some ⟨some []⟩, fun _ => some ⟨none⟩⟩ "aGVsbG8=".toList
      (initialScreen 0)).screen.isLoading = false :=
  ⟨by decide,
    (analyzeImage_busy_bracket ⟨fun _ => some ⟨some []⟩, fun _ => some ⟨none⟩⟩
      "aGVsbG8=".toList (initialScreen 0)).2.2.2.2.1 _ (by decide),
    (analyzeImage_busy_bracket ⟨fun _ => some ⟨some []⟩, fun _ => some ⟨none⟩⟩
      "aGVsbG8=".toList (initialScreen 0)).2.2.2.2.2.2⟩

/-- C19: after a run in which both services answer, the four form fields are the
four fields of the parsed text-generation response, whatever they were before; a
field whose label no line of the response assigns is the empty string; the rest
of the form (frequency, reminder and refill settings) and `imageUri` are
unchanged. -/
theorem analyzeImage_success_overwrites (sv : Services) (img : Str) (s : Screen)
    (rs : List (Option AnnotateResponse)) (aiData : CompletionData) (responseText : Str)
    (hv : sv.vision img = some ⟨some rs⟩)
    (hc : sv.completion (userContent (fullText rs)) = some aiData)
    (hr : responseTextOf aiData = some responseText) :
    (analyzeImage sv img s).screen.medicationName = (parse responseText).name ∧
    (analyzeImage sv img s).screen.dosageAmount = (parse responseText).dosageAmount ∧
    (analyzeImage sv img s).screen.dosageForm = (parse responseText).dosageForm ∧
    (analyzeImage sv img s).screen.instructions = (parse responseText).instructions ∧
    ((∀ l ∈ split '\n' responseText, lineLabel l ≠ some "Medication Name".toList) →
      (analyzeImage sv img s).screen.medicationName = .str []) ∧
    ((∀ l ∈ split '\n' responseText, lineLabel l ≠ some "Dosage".toList) →
      (analyzeImage sv img s).screen.dosageAmount = .str []) ∧
    ((∀ l ∈ split '\n' responseText, lineLabel l ≠ some "Dosage Form".toList) →
      (analyzeImage sv img s).screen.dosageForm = .str []) ∧
    ((∀ l ∈ split '\n' responseText, lineLabel l ≠ some "Instructions".toList) →
      (analyzeImage sv img s).screen.instructions = .str []) ∧
    (analyzeImage sv img s).screen.frequency = s.frequency ∧
    (analyzeImage sv img s).screen.dailyReminder = s.dailyReminder ∧
    (analyzeImage sv img s).screen.reminderTime = s.reminderTime ∧
    (analyzeImage sv img s).screen.refillReminder = s.refillReminder ∧
    (analyzeImage sv img s).screen.refillDate = s.refillDate ∧
    (analyzeImage sv img s).screen.imageUri = s.imageUri := by
  rw [analyzeImage_of_success sv img s rs aiData responseText hv hc hr]
  refine ⟨rfl, rfl, rfl, rfl, ?_, ?_, ?_, ?_, rfl, rfl, rfl, rfl, rfl, rfl⟩
  all_goals
    intro h
    show jsOr _ _ = _
    rw [getProp_parsedData_of_absent responseText _ h]
    rfl

/-- C19, at a form in which the user has typed a name and a frequency and a
response that names only the dosage: the name is reset to the empty string, the
dosage is set, the frequency is kept. -/
theorem analyzeImage_success_overwrites_witness :
    (analyzeImage
        ⟨fun _ => some ⟨some []⟩,
          fun _ => some ⟨some [some ⟨some ⟨some "Dosage: 5 mg".toList⟩⟩]⟩⟩
        "aGVsbG8=".toList
        { initialScreen 0 with
          medicationName := .str "Aspirin".toList, frequency := "Daily".toList }).screen =
      { initialScreen 0 with
        dosageAmount := .str "5 mg".toList, frequency := "Daily".toList } ∧
    (analyzeImage
        ⟨fun _ => some ⟨some []⟩,
          fun _ => some ⟨some [some ⟨some ⟨some "Dosage: 5 mg".toList⟩⟩]⟩⟩
        "aGVsbG8=".toList
        { initialScreen 0 with
          medicationName := .str "Aspirin".toList,
          frequency := "Daily".toList }).screen.medicationName = .str [] :=
  ⟨by decide,
    (analyzeImage_success_overwrites
      ⟨fun _ => some ⟨some []⟩,
        fun _ => some ⟨some [some ⟨some ⟨some "Dosage: 5 mg".toList⟩⟩]⟩⟩
      "aGVsbG8=".toList
      { initialScreen 0 with
        medicationName := .str "Aspirin".toList, frequency := "Daily".toList }
      [] ⟨some [some ⟨some ⟨some "Dosage: 5 mg".toList⟩⟩]⟩ "Dosage: 5 mg".toList
      rfl rfl rfl).2.2.2.2.1 (by decide)⟩

/-! ## Form submission -/

theorem handleAddMedication_of_falsy (be : Backend) (s : Screen) (uid : Str)
    (hu : be.currentUser = some uid)
    (h : s.medicationName.truthy = false ∨ s.dosageAmount.truthy = false ∨
      s.dosageForm.truthy = false) :
    handleAddMedication be s =
      [.alert "Missing fields".toList "Please complete all required fields.".toList] := by
  unfold handleAddMedication
  simp only [hu]
  rw [if_pos]
  rcases h with h | h | h <;> simp [h]

/-- C14: `handleAddMedication` calls `addDoc` only when a user is signed in and
`medicationName`, `dosageAmount` and `dosageForm` are all non-empty; without a
user it only shows the alert `"Not logged in"`, and with a user and an empty
required field only the alert `"Missing fields"` (no write, no navigation); so
after a scan whose parsed draft is all empty, submitting the form unedited
writes nothing and does not navigate. -/
theorem handleAddMedication_guard (be : Backend) (s : Screen) :
    (∀ uid data, Effect.addDoc uid data ∈ handleAddMedication be s →
      be.currentUser = some uid ∧ s.medicationName.truthy = true ∧
      s.dosageAmount.truthy = true ∧ s.dosageForm.truthy = true) ∧
    (be.currentUser = none →
      handleAddMedication be s =
        [.alert "Not logged in".toList "Please log in to save medications.".toList]) ∧
    (∀ uid, be.currentUser = some uid →
      (s.medicationName.truthy = false ∨ s.dosageAmount.truthy = false ∨
        s.dosageForm.truthy = false) →
      handleAddMedication be s =
        [.alert "Missing fields".toList "Please complete all required fields.".toList]) ∧
    (∀ (sv : Services) (img : Str) (rs : List (Option AnnotateResponse))
      (aiData : CompletionData) (responseText : Str),
      sv.vision img = some ⟨some rs⟩ →
      sv.completion (userContent (fullText rs)) = some aiData →
      responseTextOf aiData = some responseText →
      parse responseText = emptyDraft →
        (∀ uid data,
          Effect.addDoc uid data ∉ handleAddMedication be (analyzeImage sv img s).screen) ∧
        (∀ path,
          Effect.routerReplace path ∉
            handleAddMedication be (analyzeImage sv img s).screen)) := by
  refine ⟨?_, ?_, ?_, ?_⟩
  · intro uid data hm
    unfold handleAddMedication at hm
    cases hu : be.currentUser with
    | none =>
      rw [hu] at hm
      simp at hm
    | some u =>
      rw [hu] at hm
      simp only at hm
      by_cases hg : (!s.medicationName.truthy || !s.dosageAmount.truthy ||
          !s.dosageForm.truthy) = true
      · rw [if_pos hg] at hm
        simp at hm
      · rw [if_neg hg] at hm
        have hu2 : u = uid := by
          by_cases hr : be.addDocResolves u (medicationData be.now s) = true
          · rw [if_pos hr] at hm
            simp at hm
            exact hm.1.symm
          · rw [if_neg hr] at hm
            simp at hm
            exact hm.1.symm
        subst hu2
        simp at hg
        exact ⟨rfl, hg.1.1, hg.1.2, hg.2⟩
  · intro hu
    unfold handleAddMedication
    rw [hu]
  · intro uid hu h
    exact handleAddMedication_of_falsy be s uid hu h
  · intro sv img rs aiData responseText hv hc hr hp
    have hs : (analyzeImage sv img s).screen =
        { setExtractedFields s emptyDraft with isLoading := false } := by
      rw [analyzeImage_of_success sv img s rs aiData responseText hv hc hr, hp]
    rw [hs]
    cases hu : be.currentUser with
    | none =>
      have e : handleAddMedication be
          { setExtractedFields s emptyDraft with isLoading := false } =
          [.alert "Not logged in".toList "Please log in to save medications.".toList] := by
        unfold handleAddMedication
        rw [hu]
      rw [e]
      simp
    | some u =>
      rw [handleAddMedication_of_falsy be
        { setExtractedFields s emptyDraft with isLoading := false } u hu (Or.inl rfl)]
      simp

/-- C14, at a signed-in user and the form as it is after a scan of
`"No text found."`: only the alert `"Missing fields"`. -/
theorem handleAddMedication_guard_witness :
    handleAddMedication ⟨some "u1".toList, fun _ _ => true, 0⟩
        (analyzeImage
          ⟨fun _ => some ⟨some []⟩,
            fun _ => some ⟨some [some ⟨some ⟨some "No text found.".toList⟩⟩]⟩⟩
          "aGVsbG8=".toList (initialScreen 0)).screen =
      [.alert "Missing fields".toList "Please complete all required fields.".toList] ∧
    (∀ path, Effect.routerReplace path ∉
      handleAddMedication ⟨some "u1".toList, fun _ _ => true, 0⟩
        (analyzeImage
          ⟨fun _ => some ⟨some []⟩,
            fun _ => some ⟨some [some ⟨some ⟨some "No text found.".toList⟩⟩]⟩⟩
          "aGVsbG8=".toList (initialScreen 0)).screen) :=
  ⟨(handleAddMedication_guard ⟨some "u1".toList, fun _ _ => true, 0⟩ _).2.2.1
      "u1".toList rfl (Or.inl (by decide)),
    ((handleAddMedication_guard ⟨some "u1".toList, fun _ _ => true, 0⟩
      (initialScreen 0)).2.2.2
      ⟨fun _ => some ⟨some []⟩,
        fun _ => some ⟨some [some ⟨some ⟨some "No text found.".toList⟩⟩]⟩⟩
      "aGVsbG8=".toList [] ⟨some [some ⟨some ⟨some "No text found.".toList⟩⟩]⟩
      "No text found.".toList rfl rfl rfl (by decide)).2⟩

/-! ## Field parsing: the prompt format and repeated labels -/

theorem not_mem_append_cons_cons (c x y : Char) (a b : Str) (ha : c ∉ a) (hb : c ∉ b)
    (hx : c ≠ x) (hy : c ≠ y) : c ∉ a ++ x :: y :: b := by
  intro hm
  rcases List.mem_append.mp hm with hm | hm
  · exact ha hm
  · rcases List.mem_cons.mp hm with e | hm
    · exact hx e
    · rcases List.mem_cons.mp hm with e | hm
      · exact hy e
      · exact hb hm

theorem promptLine_eq (L v : Str) :
    "- ".toList ++ L ++ ": ".toList ++ v = ('-' :: ' ' :: L) ++ ':' :: (' ' :: v) := by
  show [ '-', ' '] ++ L ++ [ ':', ' '] ++ v = _
  simp

theorem processLine_promptLine (pd : Obj) (L v : Str) (hL : L ∈ recognised)
    (hc : ':' ∉ v) :
    processLine pd ("- ".toList ++ L ++ ": ".toList ++ v) = (L, trim v) :: pd := by
  obtain ⟨hcL, _, htL, hkL, _, _, hp, hne⟩ := recognised_facts L hL
  have hcv : ':' ∉ ' ' :: v := by
    intro hm
    rcases List.mem_cons.mp hm with e | hm
    · exact absurd e (by decide)
    · exact hc hm
  have hm := processLine_marked pd L hL [] (' ' :: v) (by simp)
  rw [List.nil_append] at hm
  rw [promptLine_eq, hm, processLine_cons_first pd L _ hcL, htL, hkL, if_pos hne,
    split_of_not_mem _ _ hcv]
  unfold setProp
  rw [if_neg hp]
  show (L, trim ([ ' '] ++ v)) :: pd = _
  rw [trim_append_of_all [ ' '] v (by decide)]

theorem promptLine_no_newline (L v : Str) (hL : L ∈ recognised) (hn : '\n' ∉ v) :
    '\n' ∉ "- ".toList ++ L ++ ": ".toList ++ v := by
  obtain ⟨_, hnL, _⟩ := recognised_facts L hL
  rw [promptLine_eq]
  exact not_mem_append_cons_cons _ _ _ _ _
    (by
      intro hm
      rcases List.mem_cons.mp hm with e | hm
      · exact absurd e (by decide)
      · rcases List.mem_cons.mp hm with e | hm
        · exact absurd e (by decide)
        · exact hnL hm)
    hn (by decide) (by decide)

theorem promptFormat_eq_joinLines (n d f i : Str) :
    promptFormat n d f i =
      joinLines ["- ".toList ++ "Medication Name".toList ++ ": ".toList ++ n,
        "- ".toList ++ "Dosage".toList ++ ": ".toList ++ d,
        "- ".toList ++ "Dosage Form".toList ++ ": ".toList ++ f,
        "- ".toList ++ "Instructions".toList ++ ": ".toList ++ i] := by
  simp [promptFormat, joinLines]

/-- C16: for values without colon and without newline, parsing the four-line
prompt-format text recovers the four trimmed values. -/
theorem parse_promptFormat (n d f i : Str)
    (hn : '\n' ∉ n) (hd : '\n' ∉ d) (hf : '\n' ∉ f) (hi : '\n' ∉ i)
    (cn : ':' ∉ n) (cd : ':' ∉ d) (cf : ':' ∉ f) (ci : ':' ∉ i) :
    parse (promptFormat n d f i) =
      ⟨.str (trim n), .str (trim d), .str (trim f), .str (trim i)⟩ := by
  have h1 : "Medication Name".toList ∈ recognised := by decide
  have h2 : "Dosage".toList ∈ recognised := by decide
  have h3 : "Dosage Form".toList ∈ recognised := by decide
  have h4 : "Instructions".toList ∈ recognised := by decide
  have hpd : parsedData (promptFormat n d f i) =
      [("Instructions".toList, trim i), ("Dosage Form".toList, trim f),
        ("Dosage".toList, trim d), ("Medication Name".toList, trim n)] := by
    unfold parsedData
    rw [promptFormat_eq_joinLines, split_joinLines _ (by simp)]
    · simp only [List.foldl_cons, List.foldl_nil]
      rw [processLine_promptLine _ _ n h1 cn, processLine_promptLine _ _ d h2 cd,
        processLine_promptLine _ _ f h3 cf, processLine_promptLine _ _ i h4 ci]
    · intro l hl
      simp only [List.mem_cons, List.mem_singleton, List.not_mem_nil, or_false] at hl
      rcases hl with e | e | e | e
      · rw [e]; exact promptLine_no_newline _ n h1 hn
      · rw [e]; exact promptLine_no_newline _ d h2 hd
      · rw [e]; exact promptLine_no_newline _ f h3 hf
      · rw [e]; exact promptLine_no_newline _ i h4 hi
  unfold parse
  rw [hpd]
  simp [draftOf, getProp, jsOr_str_nil]

/-- C16, at Scenario 1. -/
theorem parse_promptFormat_witness :
    parse "- Medication Name: Amoxicillin\n- Dosage: 500 mg\n- Dosage Form: Capsule\n- Instructions: Take twice daily with food".toList =
      ⟨.str "Amoxicillin".toList, .str "500 mg".toList, .str "Capsule".toList,
        .str "Take twice daily with food".toList⟩ :=
  parse_promptFormat "Amoxicillin".toList "500 mg".toList "Capsule".toList
    "Take twice daily with food".toList (by decide) (by decide) (by decide) (by decide)
    (by decide) (by decide) (by decide) (by decide)

theorem getProp_processLine_of_label (pd : Obj) (line L v : Str)
    (hl : lineLabel line = some L) (hv : lineValue line = some v)
    (hp : L ≠ "__proto__".toList) :
    getProp (processLine pd line) L = .str v := by
  unfold lineLabel at hl
  unfold lineValue at hv
  unfold processLine
  rcases hkv : keyValue line with ⟨_ | key, _ | value⟩ <;> rw [hkv] at hl hv
  all_goals simp at hl hv
  subst hv
  obtain ⟨hk, hc⟩ := hl
  have e : (if (!key.isEmpty) = true then setProp pd (cleanedKey key) value else pd) =
      (L, value) :: pd := by
    rw [if_pos (by simp [hk]), hc]
    unfold setProp
    rw [if_neg hp]
  show getProp (if (!key.isEmpty) = true then setProp pd (cleanedKey key) value else pd) L = _
  rw [e]
  simp [getProp]

theorem getProp_parsedData_last (text : Str) (pre post : List Str) (line L v : Str)
    (hs : split '\n' text = pre ++ line :: post)
    (hl : lineLabel line = some L) (hv : lineValue line = some v)
    (hpost : ∀ x ∈ post, lineLabel x ≠ some L) (hp : L ≠ "__proto__".toList) :
    getProp (parsedData text) L = .str v := by
  unfold parsedData
  rw [hs, List.foldl_append, List.foldl_cons, getProp_foldl_of_ne post _ L hpost]
  exact getProp_processLine_of_label _ line L v hl hv hp

/-- C18: if a line assigns a recognised label and no later line assigns it, the
field of that label is the value of that line, whatever earlier lines assigned
and also when the value is the empty string. -/
theorem parse_last_occurrence_wins (text : Str) (pre post : List Str) (line v : Str)
    (hs : split '\n' text = pre ++ line :: post) (hv : lineValue line = some v) :
    (lineLabel line = some "Medication Name".toList →
      (∀ x ∈ post, lineLabel x ≠ some "Medication Name".toList) →
        (parse text).name = .str v) ∧
    (lineLabel line = some "Dosage".toList →
      (∀ x ∈ post, lineLabel x ≠ some "Dosage".toList) →
        (parse text).dosageAmount = .str v) ∧
    (lineLabel line = some "Dosage Form".toList →
      (∀ x ∈ post, lineLabel x ≠ some "Dosage Form".toList) →
        (parse text).dosageForm = .str v) ∧
    (lineLabel line = some "Instructions".toList →
      (∀ x ∈ post, lineLabel x ≠ some "Instructions".toList) →
        (parse text).instructions = .str v) := by
  refine ⟨?_, ?_, ?_, ?_⟩
  all_goals
    intro hl hpost
    show jsOr _ _ = _
    rw [getProp_parsedData_last text pre post line _ v hs hl hv hpost (by decide)]
    exact jsOr_str_nil v

/-- C18, at `"Dosage: 5 mg\nDosage: "` (the empty last value wins) and at
`"- Dosage: 5 mg\nDosage: 10 mg"` (the unmarked last line wins over the marked one). -/
theorem parse_last_occurrence_wins_witness :
    (parse "Dosage: 5 mg\nDosage: ".toList).dosageAmount = .str [] ∧
    (parse "- Dosage: 5 mg\nDosage: 10 mg".toList).dosageAmount = .str "10 mg".toList :=
  ⟨(parse_last_occurrence_wins "Dosage: 5 mg\nDosage: ".toList
      ["Dosage: 5 mg".toList] [] "Dosage: ".toList [] (by decide) (by decide)).2.1
      (by decide) (by decide),
    (parse_last_occurrence_wins "- Dosage: 5 mg\nDosage: 10 mg".toList
      ["- Dosage: 5 mg".toList] [] "Dosage: 10 mg".toList "10 mg".toList
      (by decide) (by decide)).2.1 (by decide) (by decide)⟩

/-! ## The colour of a medication -/

theorem toInt32_bounds (x : Int) : -2147483648 ≤ toInt32 x ∧ toInt32 x < 2147483648 := by
  unfold toInt32
  omega

theorem natAbs_hashStep_le (hash : Int) (code : Nat) :
    (hashStep hash code).natAbs ≤ hash.natAbs + (2147483648 + code) := by
  have hb := toInt32_bounds (toInt32 hash * 32)
  unfold hashStep shiftLeft5
  omega

theorem natAbs_foldl_hashStep_le (codes : List Nat) (hash : Int)
    (h : ∀ c ∈ codes, c < 65536) :
    (codes.foldl hashStep hash).natAbs ≤ hash.natAbs + codes.length * 2147549183 := by
  induction codes generalizing hash with
  | nil => simp
  | cons c cs ih =>
    have hc : c < 65536 := h c (by simp)
    have h1 := ih (hashStep hash c) (fun x hx => h x (List.mem_cons_of_mem _ hx))
    have h2 := natAbs_hashStep_le hash c
    simp only [List.foldl_cons, List.length_cons]
    omega

theorem char_toNat_lt (c : Char) : c.toNat < 1114112 := by
  have hv := c.valid
  unfold UInt32.isValidChar Nat.isValidChar at hv
  unfold Char.toNat
  omega

theorem charCodes_lt (c : Char) : ∀ u ∈ charCodes c, u < 65536 := by
  have hc := char_toNat_lt c
  intro u hu
  unfold charCodes at hu
  by_cases h : c.toNat < 65536
  · rw [if_pos h] at hu
    simp only [List.mem_singleton] at hu
    omega
  · rw [if_neg h] at hu
    simp only [List.mem_cons, List.mem_singleton, List.not_mem_nil, or_false] at hu
    omega

theorem codeUnits_lt (name : Str) : ∀ u ∈ codeUnits name, u < 65536 := by
  induction name with
  | nil => simp [codeUnits]
  | cons c cs ih =>
    intro u hu
    unfold codeUnits at hu
    rcases List.mem_append.mp hu with hu | hu
    · exact charCodes_lt c u hu
    · exact ih u hu

theorem colorOptions_length : colorOptions.length = 15 := rfl

theorem colorIndex_lt (codes : List Nat) : colorIndex codes < 15 := by
  unfold colorIndex
  rw [colorOptions_length]
  exact Nat.mod_lt _ (by decide)

theorem colorOfCodes_mem (codes : List Nat) :
    ∃ c ∈ colorOptions, colorOfCodes codes = .str c := by
  have hlt : colorIndex codes < colorOptions.length := by
    rw [colorOptions_length]
    exact colorIndex_lt codes
  refine ⟨colorOptions[colorIndex codes], List.getElem_mem _, ?_⟩
  unfold colorOfCodes
  rw [List.getElem?_eq_getElem hlt]
  rfl

/-- C20: for every name the index `Math.abs(hash) % 15` is below 15 and
`getColorFromName` returns one of the 15 entries of `colorOptions`, never
`undefined`; the empty name gets `colorOptions[0]`, which is `"#FFB6B9"`; equal
names get equal colours; the same holds for every sequence of code units; and
`hash` stays within `length * (2^31 + 65535)` in absolute value, so that for
names up to 2^21 code units the arithmetic on numbers is exact. -/
theorem getColorFromName_in_bounds (name : Str) :
    colorIndex (codeUnits name) < 15 ∧
    colorOptions.length = 15 ∧
    (∃ c ∈ colorOptions, getColorFromName name = .str c) ∧
    getColorFromName name ≠ .undefined ∧
    getColorFromName [] = .str "#FFB6B9".toList ∧
    colorOptions[0]? = some "#FFB6B9".toList ∧
    (∀ other : Str, other = name → getColorFromName other = getColorFromName name) ∧
    (∀ codes : List Nat, colorIndex codes < 15 ∧
      ∃ c ∈ colorOptions, colorOfCodes codes = .str c) ∧
    (hashOf (codeUnits name)).natAbs ≤ (codeUnits name).length * 2147549183 := by
  obtain ⟨c, hc, he⟩ := colorOfCodes_mem (codeUnits name)
  refine ⟨colorIndex_lt _, rfl, ⟨c, hc, he⟩, ?_, by decide, by decide, ?_, ?_, ?_⟩
  · unfold getColorFromName
    rw [he]
    exact fun h => Value.noConfusion h
  · intro other h
    rw [h]
  · exact fun codes => ⟨colorIndex_lt codes, colorOfCodes_mem codes⟩
  · have h := natAbs_foldl_hashStep_le (codeUnits name) 0 (codeUnits_lt name)
    simpa [hashOf] using h

set_option maxRecDepth 100000 in
/-- C20, at the name `"Amoxicillin"`, whose hash leaves the 32-bit range, and at
the fallback name `"default"`. -/
theorem getColorFromName_in_bounds_witness :
    hashOf (codeUnits "Amoxicillin".toList) = -3524777761 ∧
    getColorFromName "Amoxicillin".toList = .str "#FFDAC1".toList ∧
    hashOf (codeUnits "default".toList) = 1544803905 ∧
    getColorFromName "default".toList = getColorFromName "default".toList :=
  ⟨by decide, by decide, by decide,
    (getColorFromName_in_bounds "default".toList).2.2.2.2.2.2.1 _ rfl⟩

end SnapScript
